import Mathlib

/-!
Verification of the `metisos_agentV1` example/template repository.

The repository consists of example scripts and templates around an external
`metis_agent` library.  The verifiable logic lives in the custom tool classes
(keyword matching, FAQ matching, a small math parser, mock weather/stock
lookups) and in the Flask route handlers of `examples/web_server.py`.

Python strings are embedded as `List Char` with ASCII case semantics;
Python floats appearing in the tools' arithmetic are embedded as `ℚ`;
code that can raise an exception is embedded with `Except`.
-/

namespace MetisAgent

/-- Python strings, embedded as lists of characters. -/
abbrev Str := List Char

/-- Coerce a Lean string literal to the character-list embedding. -/
def str (s : String) : Str := s.data

/-! ## Python string primitives (ASCII character model) -/

/-- The ASCII uppercase alphabet. -/
def uppercaseAscii : List Char := "ABCDEFGHIJKLMNOPQRSTUVWXYZ".data

/-- The ASCII lowercase alphabet. -/
def lowercaseAscii : List Char := "abcdefghijklmnopqrstuvwxyz".data

/-- The ASCII upper-to-lower case table. -/
def lowerPairs : List (Char × Char) := uppercaseAscii.zip lowercaseAscii

/-- The ASCII lower-to-upper case table. -/
def upperPairs : List (Char × Char) := lowercaseAscii.zip uppercaseAscii

/-- `str.lower` on a single character (ASCII model). -/
def pyLowerChar (c : Char) : Char :=
  match lowerPairs.find? (fun p => p.1 = c) with
  | some p => p.2
  | none => c

/-- `str.upper` on a single character (ASCII model). -/
def pyUpperChar (c : Char) : Char :=
  match upperPairs.find? (fun p => p.1 = c) with
  | some p => p.2
  | none => c

/-- Python `s.lower()`. -/
def pyLower (s : Str) : Str := s.map pyLowerChar

/-- Python substring containment `sub in s`. -/
def isSubstr (sub : Str) : Str → Bool
  | [] => List.isPrefixOf sub []
  | c :: t => List.isPrefixOf sub (c :: t) || isSubstr sub t

/-- Python `s.endswith(suffix)`. -/
def pyEndsWith (suffix s : Str) : Bool := List.isSuffixOf suffix s

/-- Python whitespace (`\s`, ASCII part): space, tab, newline, CR, VT, FF. -/
def isSpaceC (c : Char) : Bool :=
  c = ' ' || c = '\t' || c = '\n' || c = '\r' || c = Char.ofNat 11 || c = Char.ofNat 12

/-- Regex `\d` (ASCII model): decimal digits. -/
def isDigitC (c : Char) : Bool := c.isDigit

/-- Regex `\w` (ASCII model): letters, digits and underscore. -/
def isWordChar (c : Char) : Bool := c.isAlphanum || c = '_'

/-- One-pass accumulator scan producing the maximal runs of characters
satisfying `keep`; `cur` holds the current run in reverse. -/
def splitRunsAcc (keep : Char → Bool) : Str → Str → List Str
  | [], cur => if cur.isEmpty then [] else [cur.reverse]
  | c :: t, cur =>
    if keep c then splitRunsAcc keep t (c :: cur)
    else if cur.isEmpty then splitRunsAcc keep t []
    else cur.reverse :: splitRunsAcc keep t []

/-- Maximal runs of characters satisfying `keep`; used for `re.findall(r'\b\w+\b', s)`
(with `keep := isWordChar`) and for Python `s.split()` (with `keep := !isSpaceC`). -/
def splitRuns (keep : Char → Bool) (s : Str) : List Str := splitRunsAcc keep s []

/-- `re.findall(r'\b\w+\b', s)`: the maximal word-character runs of `s`. -/
def findWords (s : Str) : List Str := splitRuns isWordChar s

/-- Python `s.split()` (split on whitespace, discarding empty fields). -/
def pySplitWs (s : Str) : List Str := splitRuns (fun c => !isSpaceC c) s

/-- Python `s.strip()` (strip whitespace from both ends). -/
def pyStrip (s : Str) : Str :=
  ((s.dropWhile isSpaceC).reverse.dropWhile isSpaceC).reverse

/-- Python `s.strip(chars)` (strip any of `chars` from both ends). -/
def pyStripChars (chars : Str) (s : Str) : Str :=
  ((s.dropWhile (chars.contains ·)).reverse.dropWhile (chars.contains ·)).reverse

/-- Python `s.capitalize()` (ASCII model): first character uppercased,
the rest lowercased. -/
def pyCapitalize : Str → Str
  | [] => []
  | c :: t => pyUpperChar c :: t.map pyLowerChar

/-- ASCII uppercase letters. -/
def isAsciiUpper (c : Char) : Bool := uppercaseAscii.contains c

/-- ASCII lowercase letters. -/
def isAsciiLower (c : Char) : Bool := lowercaseAscii.contains c

/-- Cased characters in the ASCII model (for `str.isupper`). -/
def isCasedC (c : Char) : Bool := isAsciiLower c || isAsciiUpper c

/-- Python `s.isupper()` (ASCII model): at least one cased character and no
lowercase cased character. -/
def pyIsUpper (s : Str) : Bool :=
  s.any isCasedC && s.all (fun c => !isAsciiLower c)

/-- Auxiliary for Python `s.split(sep)` with non-empty separator `sc :: sep'`:
accumulates the current field in reverse in `cur`.  Structural recursion on a
fuel counter; every step consumes at least one character of `s`, so fuel
`s.length` never runs out. -/
def pySplitOnGo (sc : Char) (sep' : Str) : Nat → Str → Str → List Str
  | 0, _, cur => [cur.reverse]
  | _ + 1, [], cur => [cur.reverse]
  | fuel + 1, c :: t, cur =>
    if List.isPrefixOf (sc :: sep') (c :: t) then
      cur.reverse :: pySplitOnGo sc sep' fuel (t.drop sep'.length) []
    else
      pySplitOnGo sc sep' fuel t (c :: cur)

/-- Python `s.split(sep)` for a non-empty separator (the repository only calls
it with `"in "` and `"for "`). -/
def pySplitOn (sep s : Str) : List Str :=
  match sep with
  | [] => [s]
  | c :: r => pySplitOnGo c r s.length s []

/-- Decimal digit list to natural number. -/
def digitsToNat (d : Str) : Nat :=
  d.foldl (fun n c => 10 * n + (c.toNat - 48)) 0

/-- Value of Python `float("d.f")` as a rational. -/
def decimalVal (d f : Str) : ℚ :=
  (digitsToNat d : ℚ) + (digitsToNat f : ℚ) / (10 : ℚ) ^ f.length

/-! ## `examples/web_server.py`: Flask route handlers

The agent object is external; its methods are modeled as `Except`-valued
arguments (an exception raised by the library call is an `Except.error`).
Each handler also reports how often it invoked the library call, so that
"the call is not retried" is expressible. -/

/-- JSON body of a POST to `/api/query` (a Python dict: every key optional). -/
structure QueryBody where
  query : Option String
  session_id : Option String
  tool_name : Option String
deriving DecidableEq

/-- Responses produced by the three route handlers. -/
inductive WebResp where
  /-- `{'response': ..., 'session_id': ...}` -/
  | queryOk (response : String) (session_id : String)
  /-- `{'error': 'Missing query parameter'}` -/
  | missingQuery
  /-- `{'error': str(e), 'status': 'error'}` -/
  | serverError (error : String)
  /-- the identity / insights dict returned by the library, passed through -/
  | passthrough (payload : String)
deriving DecidableEq

/-- `process_query` route handler (`web_server.py`, lines 44-71).
Returns `((status, body), calls)` where `calls` lists the arguments of each
`agent.process_query` invocation. -/
def processQueryRoute (agent : String → String → Option String → Except String String)
    (data : Option QueryBody) : (Nat × WebResp) × List (String × String × Option String) :=
  match data with
  | none => ((400, .missingQuery), [])
  | some d =>
    match d.query with
    | none => ((400, .missingQuery), [])
    | some q =>
      let session_id := d.session_id.getD "default_session"
      let tool_name := d.tool_name
      match agent q session_id tool_name with
      | .ok response => ((200, .queryOk response session_id), [(q, session_id, tool_name)])
      | .error e => ((500, .serverError e), [(q, session_id, tool_name)])

/-- `get_agent_info` route handler (`web_server.py`, lines 73-86).
`calls` counts invocations of `agent.get_agent_identity`. -/
def agentInfoRoute (getIdentity : Except String String) : (Nat × WebResp) × Nat :=
  match getIdentity with
  | .ok identity => ((200, .passthrough identity), 1)
  | .error e => ((500, .serverError e), 1)

/-- `get_memory_insights` route handler (`web_server.py`, lines 88-101).
`calls` counts invocations of `agent.get_memory_insights`. -/
def memoryInsightsRoute (getInsights : Except String String) : (Nat × WebResp) × Nat :=
  match getInsights with
  | .ok insights => ((200, .passthrough insights), 1)
  | .error e => ((500, .serverError e), 1)

/-! ## `examples/custom_tools.py`: ProjectManagerTool -/

/-- A phase of the generated project plan. -/
structure PMPhase where
  duration : Str
  tasks : List Str
deriving DecidableEq

/-- The fixed `phases` dict of `ProjectManagerTool.execute` (values only;
the claim concerns the task counts). -/
def pmPhases : List PMPhase :=
  [ { duration := str "1 week",
      tasks := [str "Requirements gathering", str "System design",
                str "UI/UX mockups", str "Technology stack selection"] },
    { duration := str "2 weeks",
      tasks := [str "Backend API development", str "Database schema implementation",
                str "Frontend components", str "Integration testing"] },
    { duration := str "1 week",
      tasks := [str "Unit and integration testing", str "Performance optimization",
                str "Deployment setup", str "Documentation"] } ]

/-- The dict `{"simple": 80, "medium": 160, "complex": 240}[complexity]`:
`none` models the `KeyError`. -/
def pmEstimatedHours (complexity : Str) : Option Nat :=
  if complexity = str "simple" then some 80
  else if complexity = str "medium" then some 160
  else if complexity = str "complex" then some 240
  else none

/-- Keyword arguments of `ProjectManagerTool.execute`. -/
structure PMKwargs where
  project_type : Option Str
  complexity : Option Str
  timeline : Option Str
deriving DecidableEq

/-- Successful result dict of `ProjectManagerTool.execute`. -/
structure PMResult where
  success : Bool
  project_type : Str
  complexity : Str
  timeline : Str
  total_tasks : Nat
  estimated_hours : Nat
deriving DecidableEq

/-- `ProjectManagerTool.execute` (`custom_tools.py`, lines 125-173); the
`KeyError` raised by the `estimated_hours` lookup is the `Except.error`,
carrying the offending key. -/
def projectManagerExecute (kwargs : PMKwargs) : Except Str PMResult :=
  let project_type := kwargs.project_type.getD (str "web")
  let complexity := kwargs.complexity.getD (str "medium")
  let timeline := kwargs.timeline.getD (str "4 weeks")
  match pmEstimatedHours complexity with
  | none => .error complexity
  | some hours =>
    .ok { success := true
          project_type := project_type
          complexity := complexity
          timeline := timeline
          total_tasks := (pmPhases.map (fun p => p.tasks.length)).sum
          estimated_hours := hours }

/-! ## Keyword-based `can_handle` predicates

Every custom tool class of the repository defines `can_handle`; all but
`FAQTool` are a plain keyword-membership test over a fixed list. -/

/-- The shared shape `any(keyword in task.lower() for keyword in keywords)`. -/
def keywordCanHandle (keywords : List Str) (task : Str) : Bool :=
  keywords.any (fun k => isSubstr k (pyLower task))

/-- `CodeAnalysisTool.can_handle` keywords (`coding_assistant.py`, line 18). -/
def codeAnalysisKeywords : List Str :=
  [str "analyze code", str "review code", str "explain code", str "understand code",
   str "code analysis", str "code review", str "code explanation"]

/-- `CodeGenerationTool.can_handle` keywords (`coding_assistant.py`, line 107). -/
def codeGenerationKeywords : List Str :=
  [str "generate code", str "write code", str "create code", str "implement",
   str "code for", str "function for", str "program for"]

/-- `CustomAPITool.can_handle` keywords (`custom_tool_template.py`, line 25). -/
def customApiKeywords : List Str :=
  [str "custom api", str "external api", str "api request",
   str "fetch data", str "get information", str "api call"]

/-- `CustomDataProcessingTool.can_handle` keywords (`custom_tool_template.py`, line 133). -/
def dataProcessingKeywords : List Str :=
  [str "process data", str "analyze data", str "data processing",
   str "data analysis", str "transform data", str "data transformation"]

/-- `TicketCreationTool.can_handle` keywords (`customer_support.py`, line 147). -/
def ticketKeywords : List Str :=
  [str "ticket", str "issue", str "problem", str "bug", str "error", str "not working",
   str "broken", str "failed", str "help me with", str "support request"]

/-- `WeatherTool.can_handle` keywords (`custom_tools_template.py`, line 48). -/
def weatherTemplateKeywords : List Str :=
  [str "weather", str "temperature", str "forecast", str "climate",
   str "rain", str "sunny", str "cloudy", str "humidity", str "wind"]

/-- `DatabaseTool.can_handle` keywords (`custom_tools_template.py`, line 128). -/
def databaseKeywords : List Str :=
  [str "database", str "query", str "sql", str "select", str "insert", str "update",
   str "delete", str "table", str "record", str "data", str "store", str "retrieve",
   str "search"]

/-- `APIIntegrationTool.can_handle` keywords (`custom_tools_template.py`, line 196). -/
def apiIntegrationKeywords : List Str :=
  [str "api", str "endpoint", str "request", str "response", str "http", str "rest",
   str "webhook", str "integration", str "service", str "external"]

/-- `WorkflowTool.can_handle` (`custom_tools_template.py`, line 380):
`'workflow' in task.lower() or 'process' in task.lower()`. -/
def workflowKeywords : List Str := [str "workflow", str "process"]

/-- `SimpleMathTool.can_handle` keywords (`simple_custom_tool_example.py`, line 35). -/
def mathKeywords : List Str :=
  [str "calculate", str "compute", str "math", str "add", str "subtract",
   str "multiply", str "divide", str "+", str "-", str "*", str "/"]

/-- `BlogPostTool.can_handle` keywords (`content_creator.py`, line 17). -/
def blogKeywords : List Str :=
  [str "blog post", str "article", str "write a blog", str "create a blog",
   str "blog content", str "blog article"]

/-- `SocialMediaTool.can_handle` keywords (`content_creator.py`, line 138). -/
def socialKeywords : List Str :=
  [str "social media", str "tweet", str "twitter", str "facebook post", str "instagram",
   str "linkedin", str "social post"]

/-- `ResearchTool.can_handle` keywords (`research_agent.py`, line 17). -/
def researchKeywords : List Str :=
  [str "research", str "investigate", str "analyze", str "study", str "examine",
   str "explore", str "review", str "survey", str "find information", str "gather data"]

/-- `ValidatedTool.can_handle` keywords (`best_practices.py`, line 114); the
preceding `isinstance(task, str)` guard is identically true for string inputs. -/
def validatedKeywords : List Str := [str "validate", str "check", str "verify"]

/-- `WeatherTool.can_handle` keywords (`custom_tool.py`, line 23). -/
def weatherToolKeywords : List Str :=
  [str "weather", str "temperature", str "forecast", str "rain", str "sunny", str "climate"]

/-- `StockPriceTool.can_handle` keywords (`custom_tool.py`, line 89). -/
def stockKeywords : List Str :=
  [str "stock", str "price", str "market", str "shares", str "ticker", str "stock price"]

/-- `WeatherAnalyzerTool.can_handle` keywords (`custom_tools.py`, line 58). -/
def weatherAnalyzerKeywords : List Str :=
  [str "weather", str "forecast", str "temperature", str "rain", str "sunny", str "climate"]

/-- `ProjectManagerTool.can_handle` keywords (`custom_tools.py`, line 122). -/
def projectKeywords : List Str :=
  [str "project", str "plan", str "task", str "timeline", str "milestone",
   str "manage", str "organize"]

/-! ## `templates/customer_support/customer_support.py`: FAQTool -/

/-- `question_indicators` list of `FAQTool.can_handle` (lines 27-29). -/
def questionIndicators : List Str :=
  [str "how", str "what", str "when", str "where", str "why", str "who",
   str "which", str "can", str "do", str "does", str "is", str "are"]

/-- `faq_keywords` list of `FAQTool.can_handle` (line 40). -/
def faqKeywords : List Str :=
  [str "faq", str "question", str "answer", str "help", str "support",
   str "issue", str "problem"]

/-- `FAQTool.can_handle` (`customer_support.py`, lines 21-44): question-word
prefix, or trailing question mark, or FAQ keyword containment. -/
def faqCanHandle (task : Str) : Bool :=
  let task_lower := pyLower task
  if questionIndicators.any (fun ind => List.isPrefixOf ind task_lower) then true
  else if pyEndsWith (str "?") task_lower then true
  else if faqKeywords.any (fun k => isSubstr k task_lower) then true
  else false

/-- An FAQ entry: a question together with its answer. -/
structure FAQEntry where
  question : Str
  answer : Str
deriving DecidableEq

/-- The default FAQ data of `FAQTool._load_faq_data` (lines 64-85). -/
def defaultFaqData : List FAQEntry :=
  [ { question := str "What are your business hours?",
      answer := str "Our customer support is available 24/7. Our physical offices are open Monday to Friday, 9 AM to 5 PM local time." },
    { question := str "How do I reset my password?",
      answer := str "To reset your password, go to the login page and click on 'Forgot Password'. Follow the instructions sent to your email." },
    { question := str "How do I cancel my subscription?",
      answer := str "You can cancel your subscription by going to Account Settings > Subscription > Cancel Subscription. Please note that you'll still have access until the end of your billing period." },
    { question := str "What payment methods do you accept?",
      answer := str "We accept all major credit cards (Visa, MasterCard, American Express), PayPal, and bank transfers for annual subscriptions." },
    { question := str "How do I contact customer support?",
      answer := str "You can contact our customer support team via email at support@example.com, through the in-app chat, or by calling our toll-free number 1-800-123-4567." } ]

/-- Word set of a string: `set(re.findall(r'\b\w+\b', s))`. -/
def wordSet (s : Str) : Finset Str := (findWords s).toFinset

/-- The per-entry similarity computed in `FAQTool._find_best_match`
(lines 94-108): Jaccard similarity of the word sets, with entries whose word
set (or whose query's word set) is empty contributing score 0 (the loop
`continue`s over them and the initial `highest_score` is 0). -/
def jaccardScore (query_lower : Str) (entry : FAQEntry) : ℚ :=
  let words_query := wordSet query_lower
  let words_question := wordSet (pyLower entry.question)
  if words_query = ∅ ∨ words_question = ∅ then 0
  else
    let intersection : ℚ := (words_query ∩ words_question).card
    let union : ℚ := (words_query ∪ words_question).card
    if 0 < union then intersection / union else 0

/-- Loop body of `FAQTool._find_best_match`: update `(best_match, highest_score)`
with one entry; entries with an empty word set are skipped. -/
def fbmStep (query_lower : Str) (acc : Option FAQEntry × ℚ) (entry : FAQEntry) :
    Option FAQEntry × ℚ :=
  let words_query := wordSet query_lower
  let words_question := wordSet (pyLower entry.question)
  if words_query = ∅ ∨ words_question = ∅ then acc
  else
    let intersection : ℚ := (words_query ∩ words_question).card
    let union : ℚ := (words_query ∪ words_question).card
    let score := if 0 < union then intersection / union else 0
    if acc.2 < score then (some entry, score) else acc

/-- `FAQTool._find_best_match` (lines 87-114). -/
def findBestMatch (faq_data : List FAQEntry) (query : Str) : Option FAQEntry × ℚ :=
  let query_lower := pyLower query
  faq_data.foldl (fbmStep query_lower) (none, 0)

/-- `FAQTool._format_faq_response` (lines 116-125). -/
def formatFaqResponse : Option FAQEntry → Str
  | none => str "I'm sorry, I couldn't find an answer to your question in our FAQ."
  | some e =>
      str "## " ++ e.question ++ str "\n\n" ++ e.answer ++ str "\n\n" ++
        str "Is there anything else you'd like to know?"

/-- `FAQTool._format_general_response` (lines 127-136); the `query` argument
is not used in the produced text. -/
def formatGeneralResponse (_query : Str) : Str :=
  str "I don't have a specific answer to that question in my FAQ database. " ++
  str "Here are some options that might help:\n\n" ++
  str "1. Try rephrasing your question\n" ++
  str "2. Contact our customer support team at support@example.com\n" ++
  str "3. Check our documentation at https://example.com/docs\n\n" ++
  str "How else can I assist you today?"

/-- `FAQTool.execute` (lines 46-55). -/
def faqExecute (faq_data : List FAQEntry) (task : Str) : Str :=
  let r := findBestMatch faq_data task
  if (7 : ℚ)/10 < r.2 then formatFaqResponse r.1
  else formatGeneralResponse task

/-! ## `templates/simple_custom_tool_example.py`: SimpleMathTool

`_parse_and_calculate` matches the regexes
`(\d+(?:\.\d+)?)\s*OP\s*(\d+(?:\.\d+)?)` for the four operators and falls back
to `re.findall(r'\d+(?:\.\d+)?', task)`.  For these patterns the regex engine
is deterministic: the optional fraction group `(?:\.\d+)?` must be taken
exactly when a `'.'` followed by a digit is present (declining it leaves `'.'`
in front of `\s*OP`, which can never match since `'.'` is neither whitespace
nor an operator, and the pattern tail after the second number group is empty),
so leftmost matching reduces to first-position-that-matches with maximal
digit runs. -/

/-- Match `\d+(?:\.\d+)?` at the start of `s`, returning the float value (as a
rational) and the rest of the string. -/
def parseNumAt (s : Str) : Option (ℚ × Str) :=
  let d := s.takeWhile isDigitC
  if d = [] then none
  else
    match s.dropWhile isDigitC with
    | '.' :: r2 =>
      let f := r2.takeWhile isDigitC
      if f = [] then some ((digitsToNat d : ℚ), '.' :: r2)
      else some (decimalVal d f, r2.dropWhile isDigitC)
    | r => some ((digitsToNat d : ℚ), r)

theorem parseNumAt_length {s : Str} {n : ℚ} {r : Str} (h : parseNumAt s = some (n, r)) :
    r.length < s.length := by
  unfold parseNumAt at h
  by_cases hd : s.takeWhile isDigitC = []
  · simp [hd] at h
  · have hlen : (s.takeWhile isDigitC).length + (s.dropWhile isDigitC).length = s.length := by
      rw [← List.length_append, List.takeWhile_append_dropWhile]
    have hpos : 0 < (s.takeWhile isDigitC).length := List.length_pos.mpr hd
    have hdrop : (s.dropWhile isDigitC).length < s.length := by omega
    simp only [hd, if_false] at h
    revert h
    split
    · rename_i r2 heq
      split
      · intro h
        cases h
        exact heq ▸ hdrop
      · intro h
        cases h
        have h1 : (r2.dropWhile isDigitC).length ≤ r2.length :=
          (List.dropWhile_suffix _).sublist.length_le
        have h3 : (s.dropWhile isDigitC).length = r2.length + 1 := by
          rw [heq]; rfl
        omega
    · intro h
      cases h
      exact hdrop

/-- Match `(\d+(?:\.\d+)?)\s*op\s*(\d+(?:\.\d+)?)` at the start of `s`,
returning the two captured numbers. -/
def matchOpAt (op : Char) (s : Str) : Option (ℚ × ℚ) :=
  match parseNumAt s with
  | none => none
  | some (n1, r1) =>
    match r1.dropWhile isSpaceC with
    | [] => none
    | c :: r3 =>
      if c = op then
        match parseNumAt (r3.dropWhile isSpaceC) with
        | some (n2, _) => some (n1, n2)
        | none => none
      else none

/-- `re.search` for the operator pattern: try each start position from the
left, return the first match's groups. -/
def searchOp (op : Char) : Str → Option (ℚ × ℚ)
  | [] => none
  | c :: t =>
    match matchOpAt op (c :: t) with
    | some r => some r
    | none => searchOp op t

/-- Fuel-indexed scan for `re.findall(r'\d+(?:\.\d+)?', task)`: at a digit,
take the match and continue after it, otherwise advance one character.  By
`parseNumAt_length` every step consumes at least one character, so fuel
`s.length` never runs out. -/
def findNumsF : Nat → Str → List ℚ
  | 0, _ => []
  | _ + 1, [] => []
  | fuel + 1, c :: t =>
    if isDigitC c then
      match parseNumAt (c :: t) with
      | some (n, r) => n :: findNumsF fuel r
      | none => []
    else findNumsF fuel t

/-- `re.findall(r'\d+(?:\.\d+)?', task)`: leftmost non-overlapping number
literals, as rationals. -/
def findNums (s : Str) : List ℚ := findNumsF s.length s

/-- The patterns list order of `_parse_and_calculate` (lines 71-76). -/
def opsList : List Char := ['+', '-', '*', '/']

/-- Operator dispatch inside the `if match:` branch (lines 83-92): the
operator applied is chosen by character containment in the whole task, in the
order `+`, `-`, `*`, `/`; `none` corresponds to no branch being taken (the
`for` loop would continue). -/
def opDispatch (task : Str) (n1 n2 : ℚ) : Option (Except Str ℚ) :=
  if task.contains '+' then some (.ok (n1 + n2))
  else if task.contains '-' then some (.ok (n1 - n2))
  else if task.contains '*' then some (.ok (n1 * n2))
  else if task.contains '/' then
    some (if n2 = 0 then .error (str "Cannot divide by zero") else .ok (n1 / n2))
  else none

/-- The `for pattern in patterns:` loop of `_parse_and_calculate`. -/
def pacLoop (task : Str) : List Char → Option (Except Str ℚ)
  | [] => none
  | op :: rest =>
    match searchOp op task with
    | some (n1, n2) =>
      match opDispatch task n1 n2 with
      | some r => some r
      | none => pacLoop task rest
    | none => pacLoop task rest

/-- `SimpleMathTool._parse_and_calculate` (lines 66-99); a raised `ValueError`
is the `Except.error`, carrying `str(e)`. -/
def parseAndCalculate (task : Str) : Except Str ℚ :=
  match pacLoop task opsList with
  | some r => r
  | none =>
    let numbers := findNums task
    if 2 ≤ numbers.length then .ok (numbers.foldl (· + ·) 0)
    else .error (str "Could not parse mathematical expression from task")

/-- Result dict of `SimpleMathTool.execute`. -/
inductive MathOutcome where
  /-- `{"success": True, "data": {"task": ..., "result": ...}, ...}` -/
  | ok (task : Str) (result : ℚ)
  /-- `{"success": False, "error": ..., "suggestion": ...}` -/
  | fail (error : Str) (suggestion : Str)
deriving DecidableEq

/-- The fixed `suggestion` text of the failure dict (line 63). -/
def mathSuggestion : Str :=
  str "Please provide a clear math expression like '10 + 5' or 'calculate 20 * 3'"

/-- `SimpleMathTool.execute` (lines 39-64): the whole body is wrapped in
`try/except Exception`, so the function is total. -/
def mathExecute (task : Str) : MathOutcome :=
  match parseAndCalculate task with
  | .ok result => .ok task result
  | .error e => .fail (str "Math calculation failed: " ++ e) mathSuggestion


/-- Value of a non-negative decimal literal (`\d+` or `\d+.\d+`) as captured
by the regex number groups; `none` when the string is not such a literal. -/
def decLitVal (s : Str) : Option ℚ :=
  let d := s.takeWhile isDigitC
  if d = [] then none
  else
    match s.dropWhile isDigitC with
    | [] => some (digitsToNat d)
    | '.' :: f => if f ≠ [] ∧ f.all isDigitC = true then some (decimalVal d f) else none
    | _ => none

/-- Application of an arithmetic operator character. -/
def applyOp (op : Char) (x y : ℚ) : ℚ :=
  if op = '+' then x + y
  else if op = '-' then x - y
  else if op = '*' then x * y
  else x / y

/-- The task contains an occurrence of the pattern `\d+\s*op\s*\d+`
(the digit runs may sit inside larger decimal literals). -/
def hasOpPattern (op : Char) (task : Str) : Prop :=
  ∃ pre d1 sp1 sp2 d2 post : Str,
    task = pre ++ d1 ++ sp1 ++ op :: (sp2 ++ d2 ++ post)
    ∧ d1 ≠ [] ∧ d1.all isDigitC = true ∧ sp1.all isSpaceC = true
    ∧ sp2.all isSpaceC = true ∧ d2 ≠ [] ∧ d2.all isDigitC = true

/-! ## `examples/custom_tool.py`: WeatherTool and StockPriceTool -/

/-- Mock weather entry. -/
structure WeatherData where
  temperature : Nat
  condition : Str
  humidity : Nat
  wind : Nat
deriving DecidableEq

/-- `WeatherTool._get_mock_weather` default entry (line 78). -/
def defaultWeather : WeatherData :=
  { temperature := 20, condition := str "Unknown", humidity := 60, wind := 10 }

/-- The `mock_data` dict of `WeatherTool._get_mock_weather` (lines 70-76). -/
def weatherMockTable : List (Str × WeatherData) :=
  [ (str "New York", { temperature := 22, condition := str "Partly Cloudy", humidity := 65, wind := 12 }),
    (str "London", { temperature := 18, condition := str "Rainy", humidity := 80, wind := 15 }),
    (str "Tokyo", { temperature := 26, condition := str "Sunny", humidity := 70, wind := 8 }),
    (str "Paris", { temperature := 24, condition := str "Clear", humidity := 60, wind := 10 }),
    (str "Sydney", { temperature := 28, condition := str "Sunny", humidity := 55, wind := 14 }) ]

/-- `WeatherTool._get_mock_weather` (lines 67-78): `mock_data.get(location, default)`. -/
def getMockWeather (location : Str) : WeatherData :=
  match weatherMockTable.find? (fun p => p.1 = location) with
  | some p => p.2
  | none => defaultWeather

/-- Natural number rendering for the report strings. -/
def natToStr (n : Nat) : Str := (Nat.repr n).data

/-- `location_part.split()[0].capitalize()` with the `IndexError` made
explicit: `split()` of a blank string is empty and indexing it raises. -/
def firstWordCapitalize (location_part : Str) : Except Unit Str :=
  match pySplitWs location_part with
  | [] => .error ()
  | w :: _ => .ok (pyCapitalize w)

/-- The `"for "` half of `WeatherTool._extract_location` (lines 58-65),
reached when the `"in "` branch does not return. -/
def extractLocationFor (task_lower : Str) : Except Unit Str :=
  if isSubstr (str "for ") task_lower then
    let parts := pySplitOn (str "for ") task_lower
    if 1 < parts.length then firstWordCapitalize (pyStrip (parts.getD 1 []))
    else .ok (str "New York")
  else .ok (str "New York")

/-- `WeatherTool._extract_location` (lines 45-65). -/
def extractLocation (task : Str) : Except Unit Str :=
  let task_lower := pyLower task
  if isSubstr (str "in ") task_lower then
    let parts := pySplitOn (str "in ") task_lower
    if 1 < parts.length then firstWordCapitalize (pyStrip (parts.getD 1 []))
    else extractLocationFor task_lower
  else extractLocationFor task_lower

/-- The formatted weather report of `WeatherTool.execute` (lines 39-43). -/
def formatWeatherReport (location : Str) (w : WeatherData) : Str :=
  str "Weather for " ++ location ++ str ":\n" ++
  str "Temperature: " ++ natToStr w.temperature ++ str "°C\n" ++
  str "Condition: " ++ w.condition ++ str "\n" ++
  str "Humidity: " ++ natToStr w.humidity ++ str "%\n" ++
  str "Wind: " ++ natToStr w.wind ++ str " km/h"

/-- The fixed message of the `if not location:` branch (line 33). -/
def noLocationMsg : Str :=
  str "I couldn't determine the location. Please specify a city or location."

/-- `WeatherTool.execute` (lines 26-43); an `IndexError` raised by
`_extract_location` propagates (there is no `try/except`). -/
def weatherExecute (task : Str) : Except Unit Str :=
  match extractLocation task with
  | .error e => .error e
  | .ok location =>
    if location = [] then .ok noLocationMsg
    else .ok (formatWeatherReport location (getMockWeather location))

/-- The `common_tickers` dict of `StockPriceTool._extract_ticker`
(lines 114-122), in insertion order. -/
def commonTickers : List (Str × Str) :=
  [ (str "apple", str "AAPL"), (str "microsoft", str "MSFT"),
    (str "google", str "GOOGL"), (str "amazon", str "AMZN"),
    (str "tesla", str "TSLA"), (str "facebook", str "META"),
    (str "netflix", str "NFLX") ]

/-- The strip set `",.?!:;()"` of the ticker word scan (line 131). -/
def tickerStripSet : Str := str ",.?!:;()"

/-- `StockPriceTool._extract_ticker` (lines 109-136). -/
def extractTicker (task : Str) : Str :=
  let task_lower := pyLower task
  match commonTickers.find? (fun p => isSubstr p.1 task_lower) with
  | some p => p.2
  | none =>
    match ((pySplitWs task_lower).map (pyStripChars tickerStripSet)).find?
        (fun w => pyIsUpper w && decide (1 ≤ w.length) && decide (w.length ≤ 5)) with
    | some w => w
    | none => str "AAPL"

/-- Mock stock entry. -/
structure StockData where
  name : Str
  price : ℚ
  change : ℚ
  volume : Str
deriving DecidableEq

/-- The `mock_data` dict of `StockPriceTool._get_mock_stock_data`
(lines 141-147), with the default entry of line 149. -/
def getMockStockData (ticker : Str) : StockData :=
  if ticker = str "AAPL" then
    { name := str "Apple Inc.", price := 18263/100, change := 85/100, volume := str "32.5M" }
  else if ticker = str "MSFT" then
    { name := str "Microsoft Corporation", price := 41528/100, change := 12/10, volume := str "22.1M" }
  else if ticker = str "GOOGL" then
    { name := str "Alphabet Inc.", price := 14289/100, change := -3/10, volume := str "18.7M" }
  else if ticker = str "AMZN" then
    { name := str "Amazon.com Inc.", price := 17812/100, change := 5/10, volume := str "25.3M" }
  else if ticker = str "TSLA" then
    { name := str "Tesla, Inc.", price := 21576/100, change := -18/10, volume := str "40.2M" }
  else
    { name := str "Unknown Company", price := 100, change := 0, volume := str "0" }

/-- Rendering of the stock figures; the exact text of the numbers is not at
issue in the claims, only which branch `execute` takes. -/
def ratToStr (q : ℚ) : Str := (toString q).data

/-- The formatted stock report of `StockPriceTool.execute` (lines 104-107). -/
def formatStockReport (ticker : Str) (d : StockData) : Str :=
  str "Stock information for " ++ ticker ++ str " (" ++ d.name ++ str "):\n" ++
  str "Current Price: $" ++ ratToStr d.price ++ str "\n" ++
  str "Change: " ++ ratToStr d.change ++ str "%\n" ++
  str "Volume: " ++ d.volume

/-- The fixed message of the `if not ticker:` branch (line 98). -/
def noTickerMsg : Str :=
  str "I couldn't determine the stock ticker. Please specify a company or ticker symbol."

/-- `StockPriceTool.execute` (lines 92-107). -/
def stockExecute (task : Str) : Str :=
  let ticker := extractTicker task
  if ticker = [] then noTickerMsg
  else formatStockReport ticker (getMockStockData ticker)

/-! ## Tool instance state

The instance state each tool constructor sets up; `can_handle` bodies read
only their `task` argument and mutate nothing, which the stateful embeddings
below make explicit. -/

/-- `FAQTool.__init__` state: the loaded FAQ data. -/
structure FAQToolState where
  faq_data : List FAQEntry
deriving DecidableEq

/-- `FAQTool.can_handle` as a method: result together with the post state. -/
def FAQTool_can_handle (self : FAQToolState) (task : Str) : Bool × FAQToolState :=
  (faqCanHandle task, self)

/-- `SimpleMathTool.__init__` state (name, description, version). -/
structure SimpleMathToolState where
  name : Str
  description : Str
  version : Str
deriving DecidableEq

/-- `SimpleMathTool.can_handle` as a method. -/
def SimpleMathTool_can_handle (self : SimpleMathToolState) (task : Str) :
    Bool × SimpleMathToolState :=
  (keywordCanHandle mathKeywords task, self)

/-- `WeatherTool.__init__` state (`custom_tool.py`): the API key. -/
structure WeatherToolState where
  api_key : Str
deriving DecidableEq

/-- `WeatherTool.can_handle` as a method. -/
def WeatherTool_can_handle (self : WeatherToolState) (task : Str) :
    Bool × WeatherToolState :=
  (keywordCanHandle weatherToolKeywords task, self)

/-- The keyword lists of all custom tool classes in the repository whose
`can_handle` is a plain keyword-membership test (every tool class except
`FAQTool`). -/
def allToolKeywordLists : List (List Str) :=
  [codeAnalysisKeywords, codeGenerationKeywords, customApiKeywords,
   dataProcessingKeywords, ticketKeywords, weatherTemplateKeywords,
   databaseKeywords, apiIntegrationKeywords, workflowKeywords, mathKeywords,
   blogKeywords, socialKeywords, researchKeywords, validatedKeywords,
   weatherToolKeywords, stockKeywords, weatherAnalyzerKeywords, projectKeywords]

/-! ## Theorems -/

theorem keywordCanHandle_iff (keywords : List Str) (task : Str) :
    keywordCanHandle keywords task = true ↔
      ∃ k ∈ keywords, isSubstr k (pyLower task) = true := by
  simp [keywordCanHandle, List.any_eq_true]

theorem faqCanHandle_iff (task : Str) :
    faqCanHandle task = true ↔
      ((∃ k ∈ faqKeywords, isSubstr k (pyLower task) = true)
        ∨ (∃ ind ∈ questionIndicators, List.isPrefixOf ind (pyLower task) = true)
        ∨ pyEndsWith (str "?") (pyLower task) = true) := by
  have hbool : faqCanHandle task =
      (questionIndicators.any (fun ind => List.isPrefixOf ind (pyLower task))
        || pyEndsWith (str "?") (pyLower task)
        || faqKeywords.any (fun k => isSubstr k (pyLower task))) := by
    unfold faqCanHandle
    cases hA : questionIndicators.any (fun ind => List.isPrefixOf ind (pyLower task)) <;>
      cases hB : pyEndsWith (str "?") (pyLower task) <;>
        cases hC : faqKeywords.any (fun k => isSubstr k (pyLower task)) <;>
          simp [hA, hB, hC]
  rw [hbool]
  simp only [Bool.or_eq_true, List.any_eq_true]
  constructor
  · rintro ((⟨ind, hind, hpre⟩ | hend) | ⟨k, hk, hsub⟩)
    exacts [Or.inr (Or.inl ⟨ind, hind, hpre⟩), Or.inr (Or.inr hend), Or.inl ⟨k, hk, hsub⟩]
  · rintro (⟨k, hk, hsub⟩ | ⟨ind, hind, hpre⟩ | hend)
    exacts [Or.inr ⟨k, hk, hsub⟩, Or.inl (Or.inl ⟨ind, hind, hpre⟩), Or.inl (Or.inr hend)]

/-- Claim C1, counterexample: `FAQTool.can_handle` returns `True` on the query
`"zzz?"` although no keyword of its fixed keyword list is a substring of the
lowercased query, so keyword containment is not necessary for `can_handle`
across all tool classes. -/
theorem C1_counterexample :
    faqCanHandle (str "zzz?") = true
      ∧ ∀ k ∈ faqKeywords, isSubstr k (pyLower (str "zzz?")) = false := by
  decide

/-- Claim C1 (amended): for every custom tool class except `FAQTool`,
`can_handle(query)` is `True` iff some keyword of its fixed list is a
substring of `query.lower()`; `FAQTool.can_handle` is `True` iff a keyword is
a substring, or the lowercased query starts with a question indicator, or it
ends with a question mark. -/
theorem C1_amended : ∀ task : Str,
    (∀ kws ∈ allToolKeywordLists,
      (keywordCanHandle kws task = true ↔ ∃ k ∈ kws, isSubstr k (pyLower task) = true))
    ∧ (faqCanHandle task = true ↔
        ((∃ k ∈ faqKeywords, isSubstr k (pyLower task) = true)
          ∨ (∃ ind ∈ questionIndicators, List.isPrefixOf ind (pyLower task) = true)
          ∨ pyEndsWith (str "?") (pyLower task) = true)) := by
  intro task
  exact ⟨fun kws _ => keywordCanHandle_iff kws task, faqCanHandle_iff task⟩

/-- Witness for C1: the amended equivalences at concrete inputs. -/
theorem C1_witness :
    (keywordCanHandle mathKeywords (str "add 2 and 3") = true ↔
      ∃ k ∈ mathKeywords, isSubstr k (pyLower (str "add 2 and 3")) = true)
    ∧ (faqCanHandle (str "zzz?") = true ↔
        ((∃ k ∈ faqKeywords, isSubstr k (pyLower (str "zzz?")) = true)
          ∨ (∃ ind ∈ questionIndicators, List.isPrefixOf ind (pyLower (str "zzz?")) = true)
          ∨ pyEndsWith (str "?") (pyLower (str "zzz?")) = true)) :=
  ⟨(C1_amended (str "add 2 and 3")).1 mathKeywords (by simp [allToolKeywordLists]),
   (C1_amended (str "zzz?")).2⟩

/-- Claim C2: the `/api/query` handler forwards `query`, `session_id`
(default `"default_session"`) and `tool_name` (default `None`) to
`agent.process_query` and answers 200 with `response` and `session_id`; a
missing body or missing `query` key yields 400 with
`{'error': 'Missing query parameter'}` and no `process_query` call. -/
theorem C2_process_query_route :
    ∀ (agent : String → String → Option String → Except String String)
      (data : Option QueryBody),
    (∀ d q r, data = some d → d.query = some q →
      agent q (d.session_id.getD "default_session") d.tool_name = .ok r →
      processQueryRoute agent data =
        ((200, .queryOk r (d.session_id.getD "default_session")),
         [(q, d.session_id.getD "default_session", d.tool_name)]))
    ∧ ((data = none ∨ ∃ d, data = some d ∧ d.query = none) →
        processQueryRoute agent data = ((400, .missingQuery), [])) := by
  intro agent data
  constructor
  · rintro d q r rfl hq hagent
    simp [processQueryRoute, hq, hagent]
  · rintro (rfl | ⟨d, rfl, hq⟩)
    · rfl
    · simp [processQueryRoute, hq]

/-- Witness for C2: a concrete request with a query, and a concrete request
without a body. -/
theorem C2_witness :
    processQueryRoute (fun q _ _ => .ok ("echo " ++ q))
        (some { query := some "hi", session_id := none, tool_name := none })
      = ((200, .queryOk "echo hi" "default_session"), [("hi", "default_session", none)])
    ∧ processQueryRoute (fun q _ _ => .ok ("echo " ++ q)) none
      = ((400, .missingQuery), []) :=
  ⟨(C2_process_query_route _ _).1 _ "hi" "echo hi" rfl rfl rfl,
   (C2_process_query_route _ _).2 (Or.inl rfl)⟩

/-- Claim C3: each of the three route handlers catches an exception `e` of the
enclosed library call and answers 500 with `{'error': str(e), 'status':
'error'}`; the handler returns normally (the exception does not propagate) and
the library call is made exactly once (no retry). -/
theorem C3_exception_handling : ∀ (e : String),
    (∀ (agent : String → String → Option String → Except String String)
       (data : Option QueryBody) d q, data = some d → d.query = some q →
      agent q (d.session_id.getD "default_session") d.tool_name = .error e →
      processQueryRoute agent data =
        ((500, .serverError e),
         [(q, d.session_id.getD "default_session", d.tool_name)]))
    ∧ agentInfoRoute (.error e) = ((500, .serverError e), 1)
    ∧ memoryInsightsRoute (.error e) = ((500, .serverError e), 1) := by
  intro e
  refine ⟨?_, rfl, rfl⟩
  rintro agent data d q rfl hq hagent
  simp [processQueryRoute, hq, hagent]

/-- Witness for C3: a concrete failing agent call on each route. -/
theorem C3_witness :
    processQueryRoute (fun _ _ _ => .error "boom")
        (some { query := some "hi", session_id := some "s1", tool_name := none })
      = ((500, .serverError "boom"), [("hi", "s1", none)])
    ∧ agentInfoRoute (.error "boom") = ((500, .serverError "boom"), 1)
    ∧ memoryInsightsRoute (.error "boom") = ((500, .serverError "boom"), 1) :=
  ⟨(C3_exception_handling "boom").1 _ _ _ "hi" rfl rfl rfl,
   (C3_exception_handling "boom").2.1, (C3_exception_handling "boom").2.2⟩

/-- Claim C7: `can_handle` is deterministic and side-effect-free: on equal
query strings the result is equal (for every embedded tool), and for the
stateful tools the instance state is returned unchanged and the result does
not depend on it. -/
theorem C7_can_handle_pure :
    ∀ (s1 s2 : FAQToolState) (m1 m2 : SimpleMathToolState)
      (w1 w2 : WeatherToolState) (q q' : Str), q = q' →
    ((FAQTool_can_handle s1 q).1 = (FAQTool_can_handle s2 q').1
      ∧ (FAQTool_can_handle s1 q).2 = s1)
    ∧ ((SimpleMathTool_can_handle m1 q).1 = (SimpleMathTool_can_handle m2 q').1
      ∧ (SimpleMathTool_can_handle m1 q).2 = m1)
    ∧ ((WeatherTool_can_handle w1 q).1 = (WeatherTool_can_handle w2 q').1
      ∧ (WeatherTool_can_handle w1 q).2 = w1)
    ∧ (∀ kws ∈ allToolKeywordLists, keywordCanHandle kws q = keywordCanHandle kws q')
    ∧ faqCanHandle q = faqCanHandle q' := by
  rintro s1 s2 m1 m2 w1 w2 q q' rfl
  exact ⟨⟨rfl, rfl⟩, ⟨rfl, rfl⟩, ⟨rfl, rfl⟩, fun _ _ => rfl, rfl⟩

/-- Witness for C7: concrete distinct states and equal queries. -/
theorem C7_witness :
    ((FAQTool_can_handle ⟨defaultFaqData⟩ (str "help")).1
        = (FAQTool_can_handle ⟨[]⟩ (str "help")).1
      ∧ (FAQTool_can_handle ⟨defaultFaqData⟩ (str "help")).2 = ⟨defaultFaqData⟩)
    ∧ ((SimpleMathTool_can_handle ⟨str "SimpleMathTool", str "Perform basic mathematical calculations", str "1.0.0"⟩ (str "help")).1
        = (SimpleMathTool_can_handle ⟨[], [], []⟩ (str "help")).1
      ∧ (SimpleMathTool_can_handle ⟨str "SimpleMathTool", str "Perform basic mathematical calculations", str "1.0.0"⟩ (str "help")).2
        = ⟨str "SimpleMathTool", str "Perform basic mathematical calculations", str "1.0.0"⟩)
    ∧ ((WeatherTool_can_handle ⟨str "demo_key"⟩ (str "help")).1
        = (WeatherTool_can_handle ⟨str "other"⟩ (str "help")).1
      ∧ (WeatherTool_can_handle ⟨str "demo_key"⟩ (str "help")).2 = ⟨str "demo_key"⟩)
    ∧ (∀ kws ∈ allToolKeywordLists,
        keywordCanHandle kws (str "help") = keywordCanHandle kws (str "help"))
    ∧ faqCanHandle (str "help") = faqCanHandle (str "help") :=
  C7_can_handle_pure _ _ _ _ _ _ (str "help") (str "help") rfl

/-- Claim C8: `ProjectManagerTool.execute` raises `KeyError` exactly when the
`complexity` keyword argument (default `"medium"`) is outside
`{"simple", "medium", "complex"}`; inside the set it returns a success dict
with `estimated_hours` 80/160/240 respectively and `total_tasks` 12. -/
theorem C8_project_manager : ∀ kwargs : PMKwargs,
    ((∃ e, projectManagerExecute kwargs = .error e) ↔
      kwargs.complexity.getD (str "medium") ∉ [str "simple", str "medium", str "complex"])
    ∧ (kwargs.complexity.getD (str "medium") = str "simple" →
        ∃ r, projectManagerExecute kwargs = .ok r ∧ r.success = true
          ∧ r.estimated_hours = 80 ∧ r.total_tasks = 12)
    ∧ (kwargs.complexity.getD (str "medium") = str "medium" →
        ∃ r, projectManagerExecute kwargs = .ok r ∧ r.success = true
          ∧ r.estimated_hours = 160 ∧ r.total_tasks = 12)
    ∧ (kwargs.complexity.getD (str "medium") = str "complex" →
        ∃ r, projectManagerExecute kwargs = .ok r ∧ r.success = true
          ∧ r.estimated_hours = 240 ∧ r.total_tasks = 12) := by
  intro kwargs
  have htasks : (pmPhases.map (fun p => p.tasks.length)).sum = 12 := by decide
  by_cases h1 : kwargs.complexity.getD (str "medium") = str "simple"
  · have hex : projectManagerExecute kwargs = .ok
        { success := true, project_type := kwargs.project_type.getD (str "web"),
          complexity := str "simple", timeline := kwargs.timeline.getD (str "4 weeks"),
          total_tasks := (pmPhases.map (fun p => p.tasks.length)).sum,
          estimated_hours := 80 } := by
      unfold projectManagerExecute
      rw [h1]
      rfl
    refine ⟨⟨?_, ?_⟩, fun _ => ⟨_, hex, rfl, rfl, htasks⟩,
      fun h => absurd (h1.symm.trans h) (by decide),
      fun h => absurd (h1.symm.trans h) (by decide)⟩
    · rintro ⟨e, he⟩
      rw [hex] at he
      cases he
    · intro hmem
      exact absurd (by rw [h1]; decide) hmem
  · by_cases h2 : kwargs.complexity.getD (str "medium") = str "medium"
    · have hex : projectManagerExecute kwargs = .ok
          { success := true, project_type := kwargs.project_type.getD (str "web"),
            complexity := str "medium", timeline := kwargs.timeline.getD (str "4 weeks"),
            total_tasks := (pmPhases.map (fun p => p.tasks.length)).sum,
            estimated_hours := 160 } := by
        unfold projectManagerExecute
        rw [h2]
        rfl
      refine ⟨⟨?_, ?_⟩, fun h => absurd (h2.symm.trans h) (by decide),
        fun _ => ⟨_, hex, rfl, rfl, htasks⟩,
        fun h => absurd (h2.symm.trans h) (by decide)⟩
      · rintro ⟨e, he⟩
        rw [hex] at he
        cases he
      · intro hmem
        exact absurd (by rw [h2]; decide) hmem
    · by_cases h3 : kwargs.complexity.getD (str "medium") = str "complex"
      · have hex : projectManagerExecute kwargs = .ok
            { success := true, project_type := kwargs.project_type.getD (str "web"),
              complexity := str "complex", timeline := kwargs.timeline.getD (str "4 weeks"),
              total_tasks := (pmPhases.map (fun p => p.tasks.length)).sum,
              estimated_hours := 240 } := by
          unfold projectManagerExecute
          rw [h3]
          rfl
        refine ⟨⟨?_, ?_⟩, fun h => absurd (h3.symm.trans h) (by decide),
          fun h => absurd (h3.symm.trans h) (by decide),
          fun _ => ⟨_, hex, rfl, rfl, htasks⟩⟩
        · rintro ⟨e, he⟩
          rw [hex] at he
          cases he
        · intro hmem
          exact absurd (by rw [h3]; decide) hmem
      · have hnone : pmEstimatedHours (kwargs.complexity.getD (str "medium")) = none := by
          unfold pmEstimatedHours
          simp [h1, h2, h3]
        have hex : projectManagerExecute kwargs
            = .error (kwargs.complexity.getD (str "medium")) := by
          unfold projectManagerExecute
          simp only [hnone]
        refine ⟨⟨fun _ => ?_, fun _ => ⟨_, hex⟩⟩,
          fun h => absurd h h1, fun h => absurd h h2, fun h => absurd h h3⟩
        intro hmem
        rcases (by simpa using hmem : _ = str "simple" ∨ _ = str "medium" ∨ _ = str "complex")
          with h | h | h
        exacts [h1 h, h2 h, h3 h]

/-- Witness for C8: the default complexity yields 160 estimated hours and 12
tasks; an unknown complexity raises `KeyError`. -/
theorem C8_witness :
    (∃ r, projectManagerExecute { project_type := none, complexity := none, timeline := none }
        = .ok r ∧ r.success = true ∧ r.estimated_hours = 160 ∧ r.total_tasks = 12)
    ∧ (∃ e, projectManagerExecute
        { project_type := none, complexity := some (str "extreme"), timeline := none }
        = .error e) :=
  ⟨(C8_project_manager _).2.2.1 rfl,
   (C8_project_manager { project_type := none, complexity := some (str "extreme"), timeline := none }).1.mpr
     (by decide)⟩

theorem mem_splitRunsAcc (keep : Char → Bool) :
    ∀ (s cur : Str), ∀ w ∈ splitRunsAcc keep s cur, ∀ c ∈ w, c ∈ s ∨ c ∈ cur := by
  intro s
  induction s with
  | nil =>
    intro cur w hw c hc
    unfold splitRunsAcc at hw
    split at hw
    · cases hw
    · simp only [List.mem_singleton] at hw
      subst hw
      exact Or.inr (List.mem_reverse.mp hc)
  | cons c0 t ih =>
    intro cur w hw c hc
    unfold splitRunsAcc at hw
    split at hw
    · rcases ih (c0 :: cur) w hw c hc with h | h
      · exact Or.inl (List.mem_cons_of_mem _ h)
      · rcases List.mem_cons.mp h with rfl | h
        · exact Or.inl (List.mem_cons_self _ _)
        · exact Or.inr h
    · split at hw
      · rcases ih [] w hw c hc with h | h
        · exact Or.inl (List.mem_cons_of_mem _ h)
        · cases h
      · rcases List.mem_cons.mp hw with rfl | hw
        · exact Or.inr (List.mem_reverse.mp hc)
        · rcases ih [] w hw c hc with h | h
          · exact Or.inl (List.mem_cons_of_mem _ h)
          · cases h

theorem mem_splitRuns (keep : Char → Bool) (s : Str) :
    ∀ w ∈ splitRuns keep s, ∀ c ∈ w, c ∈ s := by
  intro w hw c hc
  rcases mem_splitRunsAcc keep s [] w hw c hc with h | h
  · exact h
  · cases h

theorem splitRunsAcc_ne_nil (keep : Char → Bool) :
    ∀ (s cur : Str), ∀ w ∈ splitRunsAcc keep s cur, w ≠ [] := by
  intro s
  induction s with
  | nil =>
    intro cur w hw
    unfold splitRunsAcc at hw
    split at hw
    · cases hw
    · rename_i hcur
      simp only [List.mem_singleton] at hw
      subst hw
      intro hrev
      rw [List.reverse_eq_nil_iff] at hrev
      subst hrev
      exact hcur rfl
  | cons c0 t ih =>
    intro cur w hw
    unfold splitRunsAcc at hw
    split at hw
    · exact ih _ w hw
    · split at hw
      · exact ih _ w hw
      · rcases List.mem_cons.mp hw with rfl | hw
        · rename_i hcur
          intro hrev
          rw [List.reverse_eq_nil_iff] at hrev
          subst hrev
          exact hcur rfl
        · exact ih _ w hw

theorem splitRuns_ne_nil (keep : Char → Bool) (s : Str) :
    ∀ w ∈ splitRuns keep s, w ≠ [] :=
  splitRunsAcc_ne_nil keep s []


theorem lowerPairs_snd_not_upper : ∀ p ∈ lowerPairs, isAsciiUpper p.2 = false := by decide

theorem upper_has_pair : ∀ c ∈ uppercaseAscii, ∃ p ∈ lowerPairs, p.1 = c := by decide

theorem isAsciiUpper_pyLowerChar (c : Char) : isAsciiUpper (pyLowerChar c) = false := by
  unfold pyLowerChar
  cases hf : lowerPairs.find? (fun p => p.1 = c) with
  | some p => exact lowerPairs_snd_not_upper p (List.mem_of_find?_eq_some hf)
  | none =>
    by_contra h
    rw [Bool.not_eq_false] at h
    have hmem : c ∈ uppercaseAscii := by
      unfold isAsciiUpper at h
      exact List.elem_iff.mp h
    obtain ⟨p, hp, hpc⟩ := upper_has_pair c hmem
    have := List.find?_eq_none.mp hf p hp
    simp [hpc] at this

theorem pyIsUpper_eq_false {w : Str} (h : ∀ c ∈ w, isAsciiUpper c = false) :
    pyIsUpper w = false := by
  unfold pyIsUpper
  cases hany : w.any isCasedC with
  | false => simp
  | true =>
    obtain ⟨c, hc, hcased⟩ := List.any_eq_true.mp hany
    have hlow : isAsciiLower c = true := by
      unfold isCasedC at hcased
      rcases (Bool.or_eq_true _ _).mp hcased with h' | h'
      · exact h'
      · exact absurd h' (by simp [h c hc])
    have hall : w.all (fun c => !isAsciiLower c) = false := by
      cases hv : w.all (fun c => !isAsciiLower c) with
      | false => rfl
      | true =>
        have := List.all_eq_true.mp hv c hc
        simp [hlow] at this
    simp [hall]

theorem mem_pyStripChars {chars w : Str} {c : Char} (h : c ∈ pyStripChars chars w) : c ∈ w := by
  unfold pyStripChars at h
  have h1 := List.mem_reverse.mp h
  have h2 : c ∈ (w.dropWhile (chars.contains ·)).reverse :=
    (List.dropWhile_sublist _).mem h1
  have h3 := List.mem_reverse.mp h2
  exact (List.dropWhile_sublist _).mem h3

theorem commonTickers_snd_ne_nil : ∀ p ∈ commonTickers, p.2 ≠ [] := by decide

/-- Claim C9: lowercasing in `StockPriceTool._extract_ticker` makes the
all-uppercase ticker scan dead code: for a task containing none of the seven
company names the function returns `"AAPL"`, the scan predicate is false on
every candidate word, `_extract_ticker` never returns an empty string, and the
"couldn't determine the stock ticker" branch of `execute` is unreachable. -/
theorem C9_ticker_scan_dead : ∀ task : Str,
    ((∀ p ∈ commonTickers, isSubstr p.1 (pyLower task) = false) →
      extractTicker task = str "AAPL")
    ∧ (∀ w ∈ (pySplitWs (pyLower task)).map (pyStripChars tickerStripSet),
        (pyIsUpper w && decide (1 ≤ w.length) && decide (w.length ≤ 5)) = false)
    ∧ extractTicker task ≠ []
    ∧ stockExecute task
        = formatStockReport (extractTicker task) (getMockStockData (extractTicker task)) := by
  intro task
  have hscan : ∀ w ∈ (pySplitWs (pyLower task)).map (pyStripChars tickerStripSet),
      (pyIsUpper w && decide (1 ≤ w.length) && decide (w.length ≤ 5)) = false := by
    intro w hw
    obtain ⟨w0, hw0, rfl⟩ := List.mem_map.mp hw
    have hup : ∀ c ∈ pyStripChars tickerStripSet w0, isAsciiUpper c = false := by
      intro c hc
      have hcw : c ∈ pyLower task := mem_splitRuns _ _ w0 hw0 c (mem_pyStripChars hc)
      obtain ⟨c', _, rfl⟩ := List.mem_map.mp hcw
      exact isAsciiUpper_pyLowerChar c'
    simp [pyIsUpper_eq_false hup]
  have hfind2 : ((pySplitWs (pyLower task)).map (pyStripChars tickerStripSet)).find?
      (fun w => pyIsUpper w && decide (1 ≤ w.length) && decide (w.length ≤ 5)) = none :=
    List.find?_eq_none.mpr (fun x hx => by simp [hscan x hx])
  have hne : extractTicker task ≠ [] := by
    unfold extractTicker
    dsimp only
    split
    · rename_i p hf1
      exact commonTickers_snd_ne_nil p (List.mem_of_find?_eq_some hf1)
    · rw [hfind2]
      decide
  refine ⟨?_, hscan, hne, ?_⟩
  · intro hno
    have hfind1 : commonTickers.find? (fun p => isSubstr p.1 (pyLower task)) = none :=
      List.find?_eq_none.mpr (fun p hp => by simp [hno p hp])
    unfold extractTicker
    simp only [hfind1, hfind2]
  · have hrw : stockExecute task = if extractTicker task = [] then noTickerMsg
        else formatStockReport (extractTicker task) (getMockStockData (extractTicker task)) := rfl
    rw [hrw, if_neg hne]

/-- Witness for C9: a task mentioning no known company. -/
theorem C9_witness :
    extractTicker (str "what is the stock price today") = str "AAPL" :=
  (C9_ticker_scan_dead _).1 (by decide)

theorem firstWordCapitalize_ok_ne_nil {lp loc : Str}
    (h : firstWordCapitalize lp = .ok loc) : loc ≠ [] := by
  unfold firstWordCapitalize at h
  cases hs : pySplitWs lp with
  | nil => rw [hs] at h; cases h
  | cons w ws =>
    rw [hs] at h
    cases h
    have hw : w ≠ [] := splitRuns_ne_nil _ _ w (hs ▸ List.mem_cons_self w ws)
    cases w with
    | nil => exact absurd rfl hw
    | cons c t => simp [pyCapitalize]

theorem extractLocation_ok_ne_nil {task loc : Str}
    (h : extractLocation task = .ok loc) : loc ≠ [] := by
  have hfor : ∀ tl, extractLocationFor tl = .ok loc → loc ≠ [] := by
    intro tl hf
    unfold extractLocationFor at hf
    split at hf
    · dsimp only at hf
      split at hf
      · exact firstWordCapitalize_ok_ne_nil hf
      · cases hf; decide
    · cases hf; decide
  unfold extractLocation at h
  dsimp only at h
  split at h
  · split at h
    · exact firstWordCapitalize_ok_ne_nil h
    · exact hfor _ h
  · exact hfor _ h

/-- Claim C10 (amended): when `WeatherTool._extract_location` returns a
location, it is non-empty, so the "couldn't determine the location" branch of
`execute` is unreachable and `execute` returns the formatted report, using the
fixed default entry for locations outside the mock table; but when the text
after the first `"in "` (or `"for "`) separator is blank, `_extract_location`
raises `IndexError`, which propagates out of `execute`. -/
theorem C10_amended : ∀ task : Str,
    (∀ loc, extractLocation task = .ok loc →
      loc ≠ [] ∧ weatherExecute task = .ok (formatWeatherReport loc (getMockWeather loc)))
    ∧ (extractLocation task = .error () → weatherExecute task = .error ())
    ∧ (∀ loc, (∀ p ∈ weatherMockTable, p.1 ≠ loc) → getMockWeather loc = defaultWeather) := by
  intro task
  refine ⟨?_, ?_, ?_⟩
  · intro loc hok
    have hne := extractLocation_ok_ne_nil hok
    refine ⟨hne, ?_⟩
    unfold weatherExecute
    rw [hok]
    dsimp only
    rw [if_neg hne]
  · intro herr
    unfold weatherExecute
    rw [herr]
  · intro loc hno
    unfold getMockWeather
    have : weatherMockTable.find? (fun p => p.1 = loc) = none :=
      List.find?_eq_none.mpr (fun p hp => by simp [hno p hp])
    rw [this]

/-- Claim C10, counterexample: on the task `"weather in "` the text after
`"in "` is blank, `location_part.split()` is empty, and indexing it raises
`IndexError`; `_extract_location` does not return a non-empty string and
`execute` does not return a report. -/
theorem C10_counterexample :
    extractLocation (str "weather in ") = .error ()
    ∧ weatherExecute (str "weather in ") = .error () := by
  constructor <;> rfl

/-- Witness for C10: a task with a proper location, and a location outside
the mock table. -/
theorem C10_witness :
    (str "Tokyo" ≠ [] ∧ weatherExecute (str "what is the weather in tokyo today")
      = .ok (formatWeatherReport (str "Tokyo") (getMockWeather (str "Tokyo"))))
    ∧ getMockWeather (str "Berlin") = defaultWeather :=
  ⟨(C10_amended _).1 (str "Tokyo") (by rfl),
   (C10_amended []).2.2 (str "Berlin") (by decide)⟩

theorem jaccardScore_nonneg (q : Str) (e : FAQEntry) : 0 ≤ jaccardScore q e := by
  unfold jaccardScore
  dsimp only
  by_cases hP : wordSet q = ∅ ∨ wordSet (pyLower e.question) = ∅
  · rw [if_pos hP]
  · rw [if_neg hP]
    split
    · positivity
    · exact le_refl 0

theorem fbmStep_eq (q : Str) (e : FAQEntry) (acc : Option FAQEntry × ℚ) (h : 0 ≤ acc.2) :
    fbmStep q acc e =
      if acc.2 < jaccardScore q e then (some e, jaccardScore q e) else acc := by
  unfold fbmStep jaccardScore
  dsimp only
  by_cases hP : wordSet q = ∅ ∨ wordSet (pyLower e.question) = ∅
  · rw [if_pos hP, if_pos hP, if_neg (not_lt.mpr h)]
  · rw [if_neg hP, if_neg hP]

theorem fbm_fold_le (q : Str) : ∀ (l : List FAQEntry) (acc : Option FAQEntry × ℚ),
    0 ≤ acc.2 → (∀ e ∈ l, jaccardScore q e ≤ acc.2) →
    l.foldl (fbmStep q) acc = acc := by
  intro l
  induction l with
  | nil => intro acc _ _; rfl
  | cons e t ih =>
    intro acc hacc hle
    rw [List.foldl_cons, fbmStep_eq q e acc hacc,
      if_neg (not_lt.mpr (hle e (List.mem_cons_self e t)))]
    exact ih acc hacc (fun e' he' => hle e' (List.mem_cons_of_mem _ he'))

theorem fbm_fold_max (q : Str) : ∀ (l : List FAQEntry) (acc : Option FAQEntry × ℚ),
    0 ≤ acc.2 → (∃ e ∈ l, acc.2 < jaccardScore q e) →
    ∃ e ∈ l, l.foldl (fbmStep q) acc = (some e, jaccardScore q e)
      ∧ (∀ e' ∈ l, jaccardScore q e' ≤ jaccardScore q e)
      ∧ acc.2 < jaccardScore q e := by
  intro l
  induction l with
  | nil => rintro acc _ ⟨e, he, _⟩; cases he
  | cons e t ih =>
    intro acc hacc hex
    rw [List.foldl_cons]
    by_cases hlt : acc.2 < jaccardScore q e
    · rw [fbmStep_eq q e acc hacc, if_pos hlt]
      by_cases hex2 : ∃ e' ∈ t, jaccardScore q e < jaccardScore q e'
      · obtain ⟨emax, hmem, hfold, hbound, hgt⟩ :=
          ih (some e, jaccardScore q e) (jaccardScore_nonneg q e) hex2
        refine ⟨emax, List.mem_cons_of_mem _ hmem, hfold, ?_, lt_trans hlt hgt⟩
        intro e' he'
        rcases List.mem_cons.mp he' with rfl | he'
        · exact le_of_lt hgt
        · exact hbound e' he'
      · push_neg at hex2
        refine ⟨e, List.mem_cons_self e t, ?_, ?_, hlt⟩
        · exact fbm_fold_le q t (some e, jaccardScore q e) (jaccardScore_nonneg q e) hex2
        · intro e' he'
          rcases List.mem_cons.mp he' with rfl | he'
          · exact le_refl _
          · exact hex2 e' he'
    · rw [fbmStep_eq q e acc hacc, if_neg hlt]
      obtain ⟨e0, he0, hgt0⟩ := hex
      rcases List.mem_cons.mp he0 with rfl | he0
      · exact absurd hgt0 hlt
      · obtain ⟨emax, hmem, hfold, hbound, hgt⟩ := ih acc hacc ⟨e0, he0, hgt0⟩
        refine ⟨emax, List.mem_cons_of_mem _ hmem, hfold, ?_, hgt⟩
        intro e' he'
        rcases List.mem_cons.mp he' with rfl | he'
        · exact le_of_lt (lt_of_le_of_lt (not_lt.mp hlt) hgt)
        · exact hbound e' he'

/-- Claim C4: `FAQTool.execute` returns the formatted FAQ entry of an entry
attaining the highest Jaccard similarity (of word sets of the lowercased query
and question; ties broken by the first such entry in the stored order) exactly
when that highest similarity exceeds 0.7, and the fixed general fallback
otherwise. -/
theorem C4_faq_best_match : ∀ (faq_data : List FAQEntry) (task : Str),
    ((∃ e ∈ faq_data, (7:ℚ)/10 < jaccardScore (pyLower task) e) →
      ∃ e ∈ faq_data,
        (∀ e' ∈ faq_data, jaccardScore (pyLower task) e' ≤ jaccardScore (pyLower task) e)
        ∧ (7:ℚ)/10 < jaccardScore (pyLower task) e
        ∧ faqExecute faq_data task = formatFaqResponse (some e))
    ∧ ((∀ e ∈ faq_data, jaccardScore (pyLower task) e ≤ 7/10) →
      faqExecute faq_data task = formatGeneralResponse task) := by
  intro faq_data task
  have hfbm : findBestMatch faq_data task = faq_data.foldl (fbmStep (pyLower task)) (none, 0) := rfl
  constructor
  · rintro ⟨e, he, hgt⟩
    have h0 : (0:ℚ) < jaccardScore (pyLower task) e :=
      lt_of_le_of_lt (by norm_num) hgt
    obtain ⟨emax, hmem, hfold, hbound, _⟩ :=
      fbm_fold_max (pyLower task) faq_data (none, 0) (le_refl 0) ⟨e, he, h0⟩
    have hgtmax : (7:ℚ)/10 < jaccardScore (pyLower task) emax :=
      lt_of_lt_of_le hgt (hbound e he)
    refine ⟨emax, hmem, hbound, hgtmax, ?_⟩
    unfold faqExecute
    rw [hfbm, hfold]
    dsimp only
    rw [if_pos hgtmax]
  · intro hle
    by_cases hex : ∃ e ∈ faq_data, (0:ℚ) < jaccardScore (pyLower task) e
    · obtain ⟨emax, hmem, hfold, _, _⟩ :=
        fbm_fold_max (pyLower task) faq_data (none, 0) (le_refl 0) hex
      unfold faqExecute
      rw [hfbm, hfold]
      dsimp only
      rw [if_neg (not_lt.mpr (hle emax hmem))]
    · push_neg at hex
      have hfold := fbm_fold_le (pyLower task) faq_data (none, 0) (le_refl 0) hex
      unfold faqExecute
      rw [hfbm, hfold]
      dsimp only
      rw [if_neg (by norm_num)]

/-- Witness for C4: an exact question match (similarity 1), and a query with
no good match. -/
theorem C4_witness :
    (∃ e ∈ defaultFaqData,
      (∀ e' ∈ defaultFaqData,
        jaccardScore (pyLower (str "What are your business hours?")) e'
          ≤ jaccardScore (pyLower (str "What are your business hours?")) e)
      ∧ (7:ℚ)/10 < jaccardScore (pyLower (str "What are your business hours?")) e
      ∧ faqExecute defaultFaqData (str "What are your business hours?")
          = formatFaqResponse (some e))
    ∧ faqExecute defaultFaqData (str "xyzzy") = formatGeneralResponse (str "xyzzy") :=
  ⟨(C4_faq_best_match defaultFaqData (str "What are your business hours?")).1
      ⟨defaultFaqData.head (by decide), by with_unfolding_all decide, by with_unfolding_all decide⟩,
   (C4_faq_best_match defaultFaqData (str "xyzzy")).2 (by with_unfolding_all decide)⟩

theorem ops_not_digit : ∀ o ∈ opsList, isDigitC o = false := by decide

theorem ops_not_space : ∀ o ∈ opsList, isSpaceC o = false := by decide

theorem ops_ne_dot : ∀ o ∈ opsList, o ≠ '.' := by decide

theorem isSpaceC_spec {c : Char} (h : isSpaceC c = true) :
    isDigitC c = false ∧ c ≠ '.' ∧ opsList.contains c = false := by
  unfold isSpaceC at h
  simp only [Bool.or_eq_true, decide_eq_true_eq] at h
  rcases h with ((((rfl | rfl) | rfl) | rfl) | rfl) | rfl <;>
    exact ⟨by decide, by decide, by decide⟩

theorem takeWhile_ne_nil_head {p : Char → Bool} {l : Str} (h : l.takeWhile p ≠ []) :
    ∃ c t, l = c :: t ∧ p c = true := by
  cases l with
  | nil => simp at h
  | cons c t =>
    rw [List.takeWhile_cons] at h
    by_cases hp : p c = true
    · exact ⟨c, t, rfl, hp⟩
    · rw [Bool.not_eq_true] at hp
      simp [hp] at h

/-- `\d+(?:\.\d+)?` fails exactly when the string does not start with a digit. -/
theorem parseNumAt_none {s : Str} (h : ∀ c0, s.head? = some c0 → isDigitC c0 = false) :
    parseNumAt s = none := by
  cases s with
  | nil => rfl
  | cons c0 t =>
    have h0 := h c0 rfl
    unfold parseNumAt
    simp [List.takeWhile_cons, h0]

theorem head_not_digit_take_drop {r : Str}
    (hr : ∀ c0, r.head? = some c0 → isDigitC c0 = false) :
    r.takeWhile isDigitC = [] ∧ r.dropWhile isDigitC = r := by
  cases r with
  | nil => exact ⟨rfl, rfl⟩
  | cons c0 t0 =>
    have h0 := hr c0 rfl
    rw [List.takeWhile_cons, List.dropWhile_cons, h0]
    exact ⟨rfl, rfl⟩

/-- Matching `\d+(?:\.\d+)?` on a digit run followed by a non-digit,
non-dot rest: the whole run is captured, no fraction. -/
theorem parseNumAt_eq_default {d r : Str} (hd : d ≠ [])
    (halld : ∀ c ∈ d, isDigitC c = true)
    (hr : ∀ c0, r.head? = some c0 → isDigitC c0 = false ∧ c0 ≠ '.') :
    parseNumAt (d ++ r) = some ((digitsToNat d : ℚ), r) := by
  obtain ⟨ht, hdr⟩ := head_not_digit_take_drop (fun c0 hc0 => (hr c0 hc0).1)
  unfold parseNumAt
  rw [List.takeWhile_append_of_pos halld, ht, List.append_nil,
    List.dropWhile_append_of_pos halld, hdr]
  rw [if_neg hd]
  cases r with
  | nil => rfl
  | cons c0 t0 =>
    have hne := (hr c0 rfl).2
    split
    · rename_i r2 heq
      injection heq with h1 h2
      exact absurd h1 hne
    · rfl

/-- Matching on a digit run followed by `'.'` and then a non-digit: the dot
is not part of the number (the fraction group needs a digit). -/
theorem parseNumAt_eq_dot_nofrac {d r : Str} (hd : d ≠ [])
    (halld : ∀ c ∈ d, isDigitC c = true)
    (hr : ∀ c0, r.head? = some c0 → isDigitC c0 = false) :
    parseNumAt (d ++ '.' :: r) = some ((digitsToNat d : ℚ), '.' :: r) := by
  have hdot : isDigitC '.' = false := by decide
  have h1 : ('.' :: r).takeWhile isDigitC = [] := by simp [List.takeWhile_cons, hdot]
  have h2 : ('.' :: r).dropWhile isDigitC = '.' :: r := by simp [List.dropWhile_cons, hdot]
  obtain ⟨ht, _⟩ := head_not_digit_take_drop hr
  unfold parseNumAt
  rw [List.takeWhile_append_of_pos halld, h1, List.append_nil,
    List.dropWhile_append_of_pos halld, h2, if_neg hd]
  split
  · rename_i r2 heq
    injection heq with h3 h4
    subst h4
    rw [ht]
    simp
  · rename_i hne
    exact absurd rfl (hne r)

/-- Matching on `digits ++ "." ++ digits ++ rest` with a non-digit rest:
both groups are captured. -/
theorem parseNumAt_eq_frac {d f r : Str} (hd : d ≠ [])
    (halld : ∀ c ∈ d, isDigitC c = true) (hf : f ≠ [])
    (hallf : ∀ c ∈ f, isDigitC c = true)
    (hr : ∀ c0, r.head? = some c0 → isDigitC c0 = false) :
    parseNumAt (d ++ '.' :: (f ++ r)) = some (decimalVal d f, r) := by
  have hdot : isDigitC '.' = false := by decide
  have h1 : ('.' :: (f ++ r)).takeWhile isDigitC = [] := by
    simp [List.takeWhile_cons, hdot]
  have h2 : ('.' :: (f ++ r)).dropWhile isDigitC = '.' :: (f ++ r) := by
    simp [List.dropWhile_cons, hdot]
  obtain ⟨ht, hdr⟩ := head_not_digit_take_drop hr
  have h3 : (f ++ r).takeWhile isDigitC = f := by
    rw [List.takeWhile_append_of_pos hallf, ht, List.append_nil]
  have h4 : (f ++ r).dropWhile isDigitC = r := by
    rw [List.dropWhile_append_of_pos hallf, hdr]
  unfold parseNumAt
  rw [List.takeWhile_append_of_pos halld, h1, List.append_nil,
    List.dropWhile_append_of_pos halld, h2, if_neg hd]
  split
  · rename_i r2 heq
    injection heq with h5 h6
    subst h6
    rw [h3, h4, if_neg (by simp [hf])]
  · rename_i hne
    exact absurd rfl (hne (f ++ r))


theorem decLitVal_head_digit {s : Str} {n : ℚ} (h : decLitVal s = some n) :
    ∃ c t, s = c :: t ∧ isDigitC c = true := by
  unfold decLitVal at h
  dsimp only at h
  by_cases hd : s.takeWhile isDigitC = []
  · simp [hd] at h
  · exact takeWhile_ne_nil_head hd

theorem decLitVal_cases {s : Str} {n : ℚ} (h : decLitVal s = some n) :
    (s ≠ [] ∧ (∀ c ∈ s, isDigitC c = true) ∧ n = (digitsToNat s : ℚ))
    ∨ (∃ d f, s = d ++ '.' :: f ∧ d ≠ [] ∧ (∀ c ∈ d, isDigitC c = true)
        ∧ f ≠ [] ∧ (∀ c ∈ f, isDigitC c = true) ∧ n = decimalVal d f) := by
  unfold decLitVal at h
  dsimp only at h
  by_cases hd : s.takeWhile isDigitC = []
  · simp [hd] at h
  · rw [if_neg hd] at h
    have hsplit : s.takeWhile isDigitC ++ s.dropWhile isDigitC = s :=
      List.takeWhile_append_dropWhile isDigitC s
    revert h
    split
    · rename_i heq
      intro h
      injection h with h'
      left
      have hs : s = s.takeWhile isDigitC := by
        conv_lhs => rw [← hsplit]
        rw [heq, List.append_nil]
      refine ⟨fun h0 => hd (by rw [h0]; rfl), ?_, ?_⟩
      · intro c hc
        exact List.mem_takeWhile_imp (hs ▸ hc)
      · conv_rhs => rw [hs]
        exact h'.symm
    · rename_i f heq
      intro h
      by_cases hf : f ≠ [] ∧ f.all isDigitC = true
      · rw [if_pos hf] at h
        injection h with h'
        right
        refine ⟨s.takeWhile isDigitC, f, ?_, hd, ?_, hf.1, List.all_eq_true.mp hf.2, h'.symm⟩
        · conv_lhs => rw [← hsplit]
          rw [heq]
        · intro c hc
          exact List.mem_takeWhile_imp hc
      · rw [if_neg hf] at h
        cases h
    · intro h
      cases h

theorem parse_exact {aLit rest : Str} {n : ℚ} (h : decLitVal aLit = some n)
    (hrest : ∀ c0, rest.head? = some c0 → isDigitC c0 = false ∧ c0 ≠ '.') :
    parseNumAt (aLit ++ rest) = some (n, rest) := by
  rcases decLitVal_cases h with ⟨hne, hall, rfl⟩ | ⟨d, f, rfl, hd, halld, hf, hallf, rfl⟩
  · exact parseNumAt_eq_default hne hall hrest
  · have hassoc : (d ++ '.' :: f) ++ rest = d ++ '.' :: (f ++ rest) := by simp
    rw [hassoc]
    exact parseNumAt_eq_frac hd halld hf hallf (fun c0 hc0 => (hrest c0 hc0).1)

theorem digit_not_space {c : Char} (h : isDigitC c = true) : isSpaceC c = false := by
  by_cases hsp : isSpaceC c = true
  · exact absurd h (by simp [(isSpaceC_spec hsp).1])
  · exact Bool.not_eq_true _ ▸ hsp

theorem matchOpAt_exact {a sp1 sp2 b post : Str} {op : Char} {na nb : ℚ}
    (hop : op ∈ opsList)
    (ha : decLitVal a = some na) (hb : decLitVal b = some nb)
    (hsp1 : ∀ c ∈ sp1, isSpaceC c = true) (hsp2 : ∀ c ∈ sp2, isSpaceC c = true)
    (hpost : ∀ c0, post.head? = some c0 → isDigitC c0 = false ∧ c0 ≠ '.') :
    matchOpAt op (a ++ (sp1 ++ op :: (sp2 ++ (b ++ post)))) = some (na, nb) := by
  have hrest1 : ∀ c0, (sp1 ++ op :: (sp2 ++ (b ++ post))).head? = some c0 →
      isDigitC c0 = false ∧ c0 ≠ '.' := by
    intro c0 hc0
    cases sp1 with
    | nil =>
      simp only [List.nil_append, List.head?_cons, Option.some_inj] at hc0
      subst hc0
      exact ⟨ops_not_digit op hop, ops_ne_dot op hop⟩
    | cons cs ts =>
      rw [List.cons_append, List.head?_cons] at hc0
      injection hc0 with hceq
      subst hceq
      have hs := isSpaceC_spec (hsp1 cs (List.mem_cons_self _ _))
      exact ⟨hs.1, hs.2.1⟩
  have hp1 := parse_exact ha hrest1
  unfold matchOpAt
  rw [hp1]
  dsimp only
  have hdrop1 : (sp1 ++ op :: (sp2 ++ (b ++ post))).dropWhile isSpaceC
      = op :: (sp2 ++ (b ++ post)) := by
    rw [List.dropWhile_append_of_pos hsp1, List.dropWhile_cons]
    simp [ops_not_space op hop]
  rw [hdrop1]
  dsimp only
  rw [if_pos rfl]
  obtain ⟨cb, tb, hbshape, hcb⟩ := decLitVal_head_digit hb
  have hdrop2 : (sp2 ++ (b ++ post)).dropWhile isSpaceC = b ++ post := by
    rw [List.dropWhile_append_of_pos hsp2, hbshape, List.cons_append,
      List.dropWhile_cons, digit_not_space hcb]
    simp
  rw [hdrop2, parse_exact hb hpost]


theorem contains_true_of_mem {l : List Char} {a : Char} (h : a ∈ l) : l.contains a = true :=
  List.elem_iff.mpr h

theorem not_mem_of_contains_false {l : List Char} {a : Char} (h : l.contains a = false) :
    a ∉ l := fun hm => by
  rw [contains_true_of_mem hm] at h
  cases h

theorem dropWhile_cons_head {p : Char → Bool} {l b : List Char} {a : Char}
    (h : l.dropWhile p = a :: b) : p a = false := by
  induction l with
  | nil => cases h
  | cons c t ih =>
    rw [List.dropWhile_cons] at h
    by_cases hp : p c = true
    · rw [if_pos hp] at h
      exact ih h
    · rw [if_neg hp] at h
      injection h with h1 h2
      subst h1
      exact Bool.not_eq_true _ ▸ hp

/-- After the first number group, the regex needs `\s*` then the operator: if
everything before the op position is operator-free and the next digit run
starts right after, the first non-space character cannot be the operator. -/
theorem dropSpace_head_ne_op {w' v : Str} {op : Char} (hop : op ∈ opsList)
    (hmemw : ∀ c ∈ w', opsList.contains c = false)
    (hv : ∃ c0 t0, v = c0 :: t0 ∧ isDigitC c0 = true) :
    ∃ ch r3, (w' ++ v).dropWhile isSpaceC = ch :: r3 ∧ ch ≠ op := by
  by_cases hsp : w'.dropWhile isSpaceC = []
  · obtain ⟨c0, t0, rfl, hc0⟩ := hv
    refine ⟨c0, t0, ?_, ?_⟩
    · rw [List.dropWhile_append, if_pos (by simp [hsp]), List.dropWhile_cons,
        digit_not_space hc0]
      rfl
    · intro heq
      subst heq
      rw [ops_not_digit c0 hop] at hc0
      cases hc0
  · obtain ⟨ch, rest, hchr⟩ : ∃ ch rest, w'.dropWhile isSpaceC = ch :: rest := by
      cases hh : w'.dropWhile isSpaceC with
      | nil => exact absurd hh hsp
      | cons a b => exact ⟨a, b, rfl⟩
    have hch_mem : ch ∈ w' :=
      (List.dropWhile_sublist _).mem (by rw [hchr]; exact List.mem_cons_self _ _)
    refine ⟨ch, rest ++ v, ?_, ?_⟩
    · rw [List.dropWhile_append, if_neg (by simp [hchr]), hchr, List.cons_append]
    · intro heq
      subst heq
      have hc := contains_true_of_mem hop
      rw [hmemw ch hch_mem] at hc
      cases hc

/-- No operator-pattern match can start strictly before the position of the
operator's left number group: the characters before it are operator-free and
the character just before the group is neither a digit nor a dot. -/
theorem matchOpAt_skip {w v : Str} {op : Char} (hop : op ∈ opsList)
    (hw : w ≠ [])
    (hfree : ∀ c ∈ w, opsList.contains c = false)
    (hlast : ∀ cp, w.getLast? = some cp → isDigitC cp = false ∧ cp ≠ '.')
    (hv : ∃ c0 t0, v = c0 :: t0 ∧ isDigitC c0 = true) :
    matchOpAt op (w ++ v) = none := by
  obtain ⟨cw, tw, rfl⟩ : ∃ a b, w = a :: b := by
    cases w with
    | nil => exact absurd rfl hw
    | cons a b => exact ⟨a, b, rfl⟩
  cases hdw : isDigitC cw with
  | false =>
    have hnone : parseNumAt ((cw :: tw) ++ v) = none := by
      refine parseNumAt_none ?_
      intro c0 hc0
      rw [List.cons_append, List.head?_cons] at hc0
      injection hc0 with hceq
      subst hceq
      exact hdw
    unfold matchOpAt
    rw [hnone]
  | true =>
    have hsplitw : (cw :: tw).takeWhile isDigitC ++ (cw :: tw).dropWhile isDigitC = cw :: tw :=
      List.takeWhile_append_dropWhile isDigitC (cw :: tw)
    have hlastmem := List.getLast?_eq_getLast (cw :: tw) (by simp)
    have hw2ne : (cw :: tw).dropWhile isDigitC ≠ [] := by
      intro h0
      have hall := List.dropWhile_eq_nil_iff.mp h0
      have hlw := (hlast _ hlastmem).1
      have := hall _ (List.getLast_mem (show cw :: tw ≠ [] by simp))
      rw [hlw] at this
      cases this
    obtain ⟨cw2, tw2, hw2⟩ : ∃ a b, (cw :: tw).dropWhile isDigitC = a :: b := by
      cases hh : (cw :: tw).dropWhile isDigitC with
      | nil => exact absurd hh hw2ne
      | cons a b => exact ⟨a, b, rfl⟩
    have hdRun_ne : (cw :: tw).takeWhile isDigitC ≠ [] := by
      rw [List.takeWhile_cons, hdw]
      simp
    have hdRun_digits : ∀ c ∈ (cw :: tw).takeWhile isDigitC, isDigitC c = true :=
      fun c hc => List.mem_takeWhile_imp hc
    have hw2_sub : ∀ c ∈ cw2 :: tw2, c ∈ cw :: tw := by
      intro c hc
      rw [← hw2] at hc
      exact (List.dropWhile_sublist _).mem hc
    have hw2_head : isDigitC cw2 = false := dropWhile_cons_head hw2
    have hlast2 : ∀ cp, (cw2 :: tw2).getLast? = some cp →
        isDigitC cp = false ∧ cp ≠ '.' := by
      intro cp hcp
      refine hlast cp ?_
      rw [← hsplitw, List.getLast?_append, hw2, hcp]
      rfl
    have hshape : (cw :: tw) ++ v
        = (cw :: tw).takeWhile isDigitC ++ ((cw2 :: tw2) ++ v) := by
      conv_lhs => rw [← hsplitw]
      rw [hw2, List.append_assoc]
    by_cases hdot : cw2 = '.'
    · subst hdot
      have htw2ne : tw2 ≠ [] := by
        intro h0
        subst h0
        have := (hlast2 '.' rfl).2
        exact this rfl
      obtain ⟨cf, tf, rfl⟩ : ∃ a b, tw2 = a :: b := by
        cases tw2 with
        | nil => exact absurd rfl htw2ne
        | cons a b => exact ⟨a, b, rfl⟩
      have hlast3 : ∀ cp, (cf :: tf).getLast? = some cp →
          isDigitC cp = false ∧ cp ≠ '.' := by
        intro cp hcp
        refine hlast2 cp ?_
        rw [show ('.' :: (cf :: tf)) = ['.'] ++ (cf :: tf) from rfl,
          List.getLast?_append, hcp]
        rfl
      cases hdf : isDigitC cf with
      | false =>
        have hp : parseNumAt ((cw :: tw) ++ v)
            = some ((digitsToNat ((cw :: tw).takeWhile isDigitC) : ℚ),
                '.' :: ((cf :: tf) ++ v)) := by
          rw [hshape, show ('.' :: (cf :: tf)) ++ v = '.' :: ((cf :: tf) ++ v) from rfl]
          refine parseNumAt_eq_dot_nofrac hdRun_ne hdRun_digits ?_
          intro c0 hc0
          rw [List.cons_append, List.head?_cons] at hc0
          injection hc0 with hceq
          subst hceq
          exact hdf
        have hdropdot : ('.' :: ((cf :: tf) ++ v)).dropWhile isSpaceC
            = '.' :: ((cf :: tf) ++ v) := by
          rw [List.dropWhile_cons]
          simp [show isSpaceC '.' = false from by decide]
        unfold matchOpAt
        rw [hp]
        dsimp only
        rw [hdropdot]
        dsimp only
        rw [if_neg (fun h => ops_ne_dot op hop h.symm)]
      | true =>
        have hfsplit : (cf :: tf).takeWhile isDigitC ++ (cf :: tf).dropWhile isDigitC
            = cf :: tf := List.takeWhile_append_dropWhile isDigitC (cf :: tf)
        have hw4ne : (cf :: tf).dropWhile isDigitC ≠ [] := by
          intro h0
          have hall := List.dropWhile_eq_nil_iff.mp h0
          have hlw := (hlast3 _ (List.getLast?_eq_getLast (cf :: tf) (by simp))).1
          have := hall _ (List.getLast_mem (show cf :: tf ≠ [] by simp))
          rw [hlw] at this
          cases this
        obtain ⟨c4, t4, hw4⟩ : ∃ a b, (cf :: tf).dropWhile isDigitC = a :: b := by
          cases hh : (cf :: tf).dropWhile isDigitC with
          | nil => exact absurd hh hw4ne
          | cons a b => exact ⟨a, b, rfl⟩
        have hf_ne : (cf :: tf).takeWhile isDigitC ≠ [] := by
          rw [List.takeWhile_cons, hdf]
          simp
        have hf_digits : ∀ c ∈ (cf :: tf).takeWhile isDigitC, isDigitC c = true :=
          fun c hc => List.mem_takeWhile_imp hc
        have hw4_head : isDigitC c4 = false := dropWhile_cons_head hw4
        have hcf : cf :: tf = (cf :: tf).takeWhile isDigitC ++ (c4 :: t4) := by
          rw [← hw4]
          exact hfsplit.symm
        have hstr : ('.' :: (cf :: tf)) ++ v
            = '.' :: ((cf :: tf).takeWhile isDigitC ++ ((c4 :: t4) ++ v)) := by
          conv_lhs => rw [hcf]
          simp
        have hp : parseNumAt ((cw :: tw) ++ v)
            = some (decimalVal ((cw :: tw).takeWhile isDigitC)
                ((cf :: tf).takeWhile isDigitC), (c4 :: t4) ++ v) := by
          rw [hshape, hstr]
          refine parseNumAt_eq_frac hdRun_ne hdRun_digits hf_ne hf_digits ?_
          intro c0 hc0
          rw [List.cons_append, List.head?_cons] at hc0
          injection hc0 with hceq
          subst hceq
          exact hw4_head
        have hw4_sub : ∀ c ∈ c4 :: t4, c ∈ cw :: tw := by
          intro c hc
          rw [← hw4] at hc
          have h1 : c ∈ cf :: tf := (List.dropWhile_sublist _).mem hc
          exact hw2_sub c (List.mem_cons_of_mem _ h1)
        obtain ⟨ch, r3, hdropeq, hchne⟩ :=
          @dropSpace_head_ne_op (c4 :: t4) v op hop
            (fun c hc => hfree c (hw4_sub c hc)) hv
        unfold matchOpAt
        rw [hp]
        dsimp only
        rw [hdropeq]
        dsimp only
        rw [if_neg hchne]
    · have hp : parseNumAt ((cw :: tw) ++ v)
          = some ((digitsToNat ((cw :: tw).takeWhile isDigitC) : ℚ),
              (cw2 :: tw2) ++ v) := by
        rw [hshape]
        refine parseNumAt_eq_default hdRun_ne hdRun_digits ?_
        intro c0 hc0
        rw [List.cons_append, List.head?_cons] at hc0
        injection hc0 with hceq
        subst hceq
        exact ⟨hw2_head, hdot⟩
      obtain ⟨ch, r3, hdropeq, hchne⟩ :=
        @dropSpace_head_ne_op (cw2 :: tw2) v op hop
          (fun c hc => hfree c (hw2_sub c hc)) hv
      unfold matchOpAt
      rw [hp]
      dsimp only
      rw [hdropeq]
      dsimp only
      rw [if_neg hchne]


theorem parseNumAt_rest_sublist {s r : Str} {n : ℚ} (h : parseNumAt s = some (n, r)) :
    r.Sublist s := by
  unfold parseNumAt at h
  by_cases hd : s.takeWhile isDigitC = []
  · simp [hd] at h
  · rw [if_neg hd] at h
    revert h
    split
    · rename_i r2 heq
      dsimp only
      split
      · intro h
        injection h with h'
        injection h' with h1 h2
        rw [← h2, ← heq]
        exact List.dropWhile_sublist _
      · intro h
        injection h with h'
        injection h' with h1 h2
        rw [← h2]
        have h3 : (r2.dropWhile isDigitC).Sublist r2 := List.dropWhile_sublist _
        have h4 : r2.Sublist ('.' :: r2) := List.sublist_cons_self _ _
        have h5 : ('.' :: r2).Sublist s := heq ▸ List.dropWhile_sublist _
        exact (h3.trans h4).trans h5
    · intro h
      injection h with h'
      injection h' with h1 h2
      rw [← h2]
      exact List.dropWhile_sublist _

theorem parseNumAt_some_take_ne {s : Str} {x : ℚ × Str} (h : parseNumAt s = some x) :
    s.takeWhile isDigitC ≠ [] := by
  intro hd
  unfold parseNumAt at h
  rw [if_pos hd] at h
  cases h

theorem parseNumAt_isSome {s : Str} (h : ∃ c t, s = c :: t ∧ isDigitC c = true) :
    parseNumAt s ≠ none := by
  obtain ⟨c, t, rfl, hc⟩ := h
  unfold parseNumAt
  have hd : (c :: t).takeWhile isDigitC ≠ [] := by
    rw [List.takeWhile_cons, hc]
    simp
  rw [if_neg hd]
  split
  · dsimp only
    split <;> simp
  · simp

theorem matchOpAt_op_mem {s : Str} {op : Char} {r : ℚ × ℚ}
    (h : matchOpAt op s = some r) : op ∈ s := by
  unfold matchOpAt at h
  revert h
  cases hp : parseNumAt s with
  | none => intro h; cases h
  | some nr =>
    obtain ⟨n1, r1⟩ := nr
    dsimp only
    cases hdw : r1.dropWhile isSpaceC with
    | nil => intro h; cases h
    | cons c r3 =>
      dsimp only
      by_cases hc : c = op
      · intro _
        subst hc
        have h1 : c ∈ r1.dropWhile isSpaceC := by
          rw [hdw]
          exact List.mem_cons_self _ _
        have h2 : c ∈ r1 := (List.dropWhile_sublist _).mem h1
        exact (parseNumAt_rest_sublist hp).mem h2
      · rw [if_neg hc]
        intro h
        cases h

theorem searchOp_mem {s : Str} {op : Char} {r : ℚ × ℚ}
    (h : searchOp op s = some r) : op ∈ s := by
  induction s with
  | nil => cases h
  | cons c t ih =>
    rw [searchOp] at h
    revert h
    cases hm : matchOpAt op (c :: t) with
    | some r' =>
      intro h
      exact matchOpAt_op_mem hm
    | none =>
      intro h
      exact List.mem_cons_of_mem _ (ih h)


theorem searchOp_exact {a sp1 sp2 b post : Str} {op : Char} {na nb : ℚ}
    (hop : op ∈ opsList)
    (ha : decLitVal a = some na) (hb : decLitVal b = some nb)
    (hsp1 : ∀ c ∈ sp1, isSpaceC c = true) (hsp2 : ∀ c ∈ sp2, isSpaceC c = true)
    (hpost : ∀ c0, post.head? = some c0 → isDigitC c0 = false ∧ c0 ≠ '.') :
    ∀ pre : Str, (∀ c ∈ pre, opsList.contains c = false) →
    (∀ cp, pre.getLast? = some cp → isDigitC cp = false ∧ cp ≠ '.') →
    searchOp op (pre ++ (a ++ (sp1 ++ op :: (sp2 ++ (b ++ post))))) = some (na, nb) := by
  obtain ⟨ca, ta, hashape, hca⟩ := decLitVal_head_digit ha
  intro pre
  induction pre with
  | nil =>
    intro _ _
    rw [List.nil_append]
    have hm := matchOpAt_exact hop ha hb hsp1 hsp2 hpost
    rw [hashape, List.cons_append]
    rw [hashape, List.cons_append] at hm
    rw [searchOp, hm]
  | cons cp pret ih =>
    intro hfree hlast
    have hlast' : ∀ cp', pret.getLast? = some cp' → isDigitC cp' = false ∧ cp' ≠ '.' := by
      intro cp' h'
      refine hlast cp' ?_
      rw [show cp :: pret = [cp] ++ pret from rfl, List.getLast?_append, h']
      rfl
    have hfree' : ∀ c ∈ pret, opsList.contains c = false :=
      fun c hc => hfree c (List.mem_cons_of_mem _ hc)
    have hv : ∃ c0 t0, a ++ (sp1 ++ op :: (sp2 ++ (b ++ post))) = c0 :: t0
        ∧ isDigitC c0 = true := by
      refine ⟨ca, ta ++ (sp1 ++ op :: (sp2 ++ (b ++ post))), ?_, hca⟩
      rw [hashape, List.cons_append]
    have hskip : matchOpAt op ((cp :: pret) ++ (a ++ (sp1 ++ op :: (sp2 ++ (b ++ post)))))
        = none :=
      matchOpAt_skip hop (by simp) hfree hlast hv
    rw [List.cons_append] at hskip ⊢
    rw [searchOp, hskip]
    exact ih hfree' hlast'

/-- If the digit run before the operator and after it are present, a match
attempt at the start of that digit run succeeds (the captured values are
irrelevant here). -/
theorem matchOpAt_pattern_isSome {d1 sp1 sp2 d2 post : Str} {op : Char}
    (hop : op ∈ opsList)
    (hd1 : d1 ≠ []) (hd1a : ∀ c ∈ d1, isDigitC c = true)
    (hsp1 : ∀ c ∈ sp1, isSpaceC c = true) (hsp2 : ∀ c ∈ sp2, isSpaceC c = true)
    (hd2 : d2 ≠ []) (hd2a : ∀ c ∈ d2, isDigitC c = true) :
    matchOpAt op (d1 ++ (sp1 ++ op :: (sp2 ++ (d2 ++ post)))) ≠ none := by
  have hrest1 : ∀ c0, (sp1 ++ op :: (sp2 ++ (d2 ++ post))).head? = some c0 →
      isDigitC c0 = false ∧ c0 ≠ '.' := by
    intro c0 hc0
    cases sp1 with
    | nil =>
      rw [List.nil_append, List.head?_cons] at hc0
      injection hc0 with hceq
      exact hceq ▸ ⟨ops_not_digit op hop, ops_ne_dot op hop⟩
    | cons cs ts =>
      rw [List.cons_append, List.head?_cons] at hc0
      injection hc0 with hceq
      subst hceq
      have hs := isSpaceC_spec (hsp1 cs (List.mem_cons_self _ _))
      exact ⟨hs.1, hs.2.1⟩
  have hp1 := parseNumAt_eq_default hd1 hd1a hrest1
  unfold matchOpAt
  rw [hp1]
  dsimp only
  have hdrop1 : (sp1 ++ op :: (sp2 ++ (d2 ++ post))).dropWhile isSpaceC
      = op :: (sp2 ++ (d2 ++ post)) := by
    rw [List.dropWhile_append_of_pos hsp1, List.dropWhile_cons]
    simp [ops_not_space op hop]
  rw [hdrop1]
  dsimp only
  rw [if_pos rfl]
  obtain ⟨cb, tb, hbshape⟩ : ∃ a b, d2 = a :: b := by
    cases d2 with
    | nil => exact absurd rfl hd2
    | cons x y => exact ⟨x, y, rfl⟩
  have hcb : isDigitC cb = true := hd2a cb (by rw [hbshape]; exact List.mem_cons_self _ _)
  have hdrop2 : (sp2 ++ (d2 ++ post)).dropWhile isSpaceC = d2 ++ post := by
    rw [List.dropWhile_append_of_pos hsp2, hbshape, List.cons_append, List.dropWhile_cons,
      digit_not_space hcb]
    simp
  rw [hdrop2]
  have hsome : parseNumAt (d2 ++ post) ≠ none := parseNumAt_isSome
    ⟨cb, tb ++ post, by rw [hbshape, List.cons_append], hcb⟩
  revert hsome
  cases parseNumAt (d2 ++ post) with
  | none => intro hsome; exact absurd rfl hsome
  | some x =>
    intro _
    obtain ⟨x1, x2⟩ := x
    simp

/-- Completeness of the search: an operator pattern occurrence somewhere in
the task makes `re.search` succeed. -/
theorem searchOp_of_pattern {op : Char} {task : Str} (hop : op ∈ opsList)
    (h : hasOpPattern op task) : searchOp op task ≠ none := by
  obtain ⟨pre, d1, sp1, sp2, d2, post, rfl, hd1, hd1a, hsp1, hsp2, hd2, hd2a⟩ := h
  have hd1a' := List.all_eq_true.mp hd1a
  have hd2a' := List.all_eq_true.mp hd2a
  have hsp1' := List.all_eq_true.mp hsp1
  have hsp2' := List.all_eq_true.mp hsp2
  induction pre with
  | nil =>
    rw [List.nil_append]
    obtain ⟨c1, t1, h1shape⟩ : ∃ x y, d1 = x :: y := by
      cases d1 with
      | nil => exact absurd rfl hd1
      | cons x y => exact ⟨x, y, rfl⟩
    have hmm : matchOpAt op (d1 ++ sp1 ++ op :: (sp2 ++ d2 ++ post)) ≠ none := by
      have := @matchOpAt_pattern_isSome d1 sp1 sp2 d2 post op hop hd1 hd1a' hsp1' hsp2'
        hd2 hd2a'
      rw [show d1 ++ (sp1 ++ op :: (sp2 ++ (d2 ++ post)))
          = d1 ++ sp1 ++ op :: (sp2 ++ d2 ++ post) from by simp] at this
      exact this
    intro hnone
    rw [h1shape] at hmm hnone
    simp only [List.cons_append] at hmm hnone
    rw [searchOp] at hnone
    cases hcase : matchOpAt op (c1 :: (t1 ++ sp1 ++ op :: (sp2 ++ d2 ++ post))) with
    | some r => rw [hcase] at hnone; cases hnone
    | none => exact absurd hcase hmm
  | cons cp pret ih =>
    intro hnone
    simp only [List.cons_append] at hnone
    rw [searchOp] at hnone
    cases hcase : matchOpAt op (cp :: (pret ++ d1 ++ sp1 ++ op :: (sp2 ++ d2 ++ post))) with
    | some r => rw [hcase] at hnone; cases hnone
    | none =>
      rw [hcase] at hnone
      exact ih hnone


theorem parseNumAt_decomp {s r : Str} {n : ℚ} (h : parseNumAt s = some (n, r)) :
    ∃ p d, s = p ++ d ++ r ∧ d ≠ [] ∧ ∀ c ∈ d, isDigitC c = true := by
  have hsplit : s.takeWhile isDigitC ++ s.dropWhile isDigitC = s :=
    List.takeWhile_append_dropWhile isDigitC s
  unfold parseNumAt at h
  by_cases hd : s.takeWhile isDigitC = []
  · simp [hd] at h
  · rw [if_neg hd] at h
    revert h
    split
    · rename_i r2 heq
      dsimp only
      split
      · intro h
        injection h with h'
        injection h' with h1 h2
        refine ⟨[], s.takeWhile isDigitC, ?_, hd, fun c hc => List.mem_takeWhile_imp hc⟩
        rw [List.nil_append, ← h2, ← heq, hsplit]
      · rename_i hf
        intro h
        injection h with h'
        injection h' with h1 h2
        have hr2 : r2.takeWhile isDigitC ++ r2.dropWhile isDigitC = r2 :=
          List.takeWhile_append_dropWhile isDigitC r2
        refine ⟨s.takeWhile isDigitC ++ ['.'], r2.takeWhile isDigitC, ?_, hf,
          fun c hc => List.mem_takeWhile_imp hc⟩
        conv_lhs => rw [← hsplit, heq]
        rw [← h2]
        conv_lhs => rw [← hr2]
        simp
    · intro h
      injection h with h'
      injection h' with h1 h2
      refine ⟨[], s.takeWhile isDigitC, ?_, hd, fun c hc => List.mem_takeWhile_imp hc⟩
      rw [List.nil_append, ← h2, hsplit]

theorem matchOpAt_hasOpPattern {s : Str} {op : Char} {r : ℚ × ℚ}
    (h : matchOpAt op s = some r) : hasOpPattern op s := by
  unfold matchOpAt at h
  revert h
  cases hp : parseNumAt s with
  | none => intro h; cases h
  | some nr =>
    obtain ⟨n1, r1⟩ := nr
    dsimp only
    cases hdw : r1.dropWhile isSpaceC with
    | nil => intro h; cases h
    | cons c r3 =>
      dsimp only
      by_cases hc : c = op
      · subst hc
        rw [if_pos rfl]
        intro h
        revert h
        cases hp2 : parseNumAt (r3.dropWhile isSpaceC) with
        | none => intro h; cases h
        | some nr2 =>
          intro _
          obtain ⟨p, d1, hs, hd1, hd1a⟩ := parseNumAt_decomp hp
          have hr1 : r1.takeWhile isSpaceC ++ (c :: r3) = r1 := by
            rw [← hdw]
            exact List.takeWhile_append_dropWhile isSpaceC r1
          have hr3 : r3.takeWhile isSpaceC ++ r3.dropWhile isSpaceC = r3 :=
            List.takeWhile_append_dropWhile isSpaceC r3
          have hq : (r3.dropWhile isSpaceC).takeWhile isDigitC
              ++ (r3.dropWhile isSpaceC).dropWhile isDigitC = r3.dropWhile isSpaceC :=
            List.takeWhile_append_dropWhile isDigitC _
          refine ⟨p, d1, r1.takeWhile isSpaceC, r3.takeWhile isSpaceC,
            (r3.dropWhile isSpaceC).takeWhile isDigitC,
            (r3.dropWhile isSpaceC).dropWhile isDigitC, ?_, hd1,
            List.all_eq_true.mpr hd1a,
            List.all_eq_true.mpr (fun c' hc' => List.mem_takeWhile_imp hc'),
            List.all_eq_true.mpr (fun c' hc' => List.mem_takeWhile_imp hc'),
            parseNumAt_some_take_ne hp2,
            List.all_eq_true.mpr (fun c' hc' => List.mem_takeWhile_imp hc')⟩
          rw [hs]
          conv_lhs => rw [← hr1, ← hr3, ← hq]
          simp
      · rw [if_neg hc]
        intro h
        cases h

theorem searchOp_hasOpPattern {s : Str} {op : Char} {r : ℚ × ℚ}
    (h : searchOp op s = some r) : hasOpPattern op s := by
  induction s with
  | nil => cases h
  | cons c t ih =>
    rw [searchOp] at h
    revert h
    cases hm : matchOpAt op (c :: t) with
    | some r' =>
      intro _
      exact matchOpAt_hasOpPattern hm
    | none =>
      intro h
      obtain ⟨pre, d1, sp1, sp2, d2, post, heq, rest⟩ := ih h
      exact ⟨c :: pre, d1, sp1, sp2, d2, post, by rw [heq]; simp, rest⟩


/-- Claim C6: a query containing exactly one operator character, sitting in a
substring `a op b` of decimal literals (with maximal literal boundaries:
the character before `a` is neither digit nor dot, likewise after `b`; and
`b` nonzero when `op` is `/`), makes `_parse_and_calculate` return `a op b`;
a query matching no operator pattern but containing at least two decimal
literals yields the sum of all the literals found. -/
theorem C6_parse_and_calculate :
    (∀ (pre a sp1 sp2 b post : Str) (op : Char) (na nb : ℚ),
      op ∈ opsList →
      (pre ++ a ++ sp1 ++ op :: (sp2 ++ b ++ post)).countP opsList.contains = 1 →
      decLitVal a = some na → decLitVal b = some nb →
      sp1.all isSpaceC = true → sp2.all isSpaceC = true →
      (∀ cp, pre.getLast? = some cp → isDigitC cp = false ∧ cp ≠ '.') →
      (∀ cp, post.head? = some cp → isDigitC cp = false ∧ cp ≠ '.') →
      (op = '/' → nb ≠ 0) →
      parseAndCalculate (pre ++ a ++ sp1 ++ op :: (sp2 ++ b ++ post))
        = .ok (applyOp op na nb))
    ∧ (∀ task : Str, (∀ op ∈ opsList, ¬ hasOpPattern op task) →
        2 ≤ (findNums task).length →
        parseAndCalculate task = .ok ((findNums task).foldl (· + ·) 0)) := by
  constructor
  · intro pre a sp1 sp2 b post op na nb hop hcount ha hb hsp1 hsp2 hpre hpost hdiv
    have hopc : opsList.contains op = true := contains_true_of_mem hop
    rw [List.countP_append, List.countP_append, List.countP_append,
      List.countP_cons_of_pos _ _ hopc, List.countP_append, List.countP_append] at hcount
    have hzpre : pre.countP opsList.contains = 0 := by omega
    have hza : a.countP opsList.contains = 0 := by omega
    have hzsp1 : sp1.countP opsList.contains = 0 := by omega
    have hzsp2 : sp2.countP opsList.contains = 0 := by omega
    have hzb : b.countP opsList.contains = 0 := by omega
    have hzpost : post.countP opsList.contains = 0 := by omega
    have hfree : ∀ (l : Str), l.countP opsList.contains = 0 →
        ∀ c ∈ l, opsList.contains c = false := by
      intro l hl c hc
      have := List.countP_eq_zero.mp hl c hc
      exact Bool.not_eq_true _ ▸ this
    have hT : pre ++ a ++ sp1 ++ op :: (sp2 ++ b ++ post)
        = pre ++ (a ++ (sp1 ++ op :: (sp2 ++ (b ++ post)))) := by
      simp [List.append_assoc]
    have hsearch : searchOp op (pre ++ a ++ sp1 ++ op :: (sp2 ++ b ++ post))
        = some (na, nb) := by
      rw [hT]
      exact searchOp_exact hop ha hb (List.all_eq_true.mp hsp1) (List.all_eq_true.mp hsp2)
        hpost pre (hfree pre hzpre) hpre
    have honly : ∀ c, c ∈ pre ++ a ++ sp1 ++ op :: (sp2 ++ b ++ post) →
        opsList.contains c = true → c = op := by
      intro c hc hcc
      simp only [List.mem_append, List.mem_cons] at hc
      rcases hc with ((hc | hc) | hc) | hc | (hc | hc) | hc
      · rw [hfree pre hzpre c hc] at hcc; cases hcc
      · rw [hfree a hza c hc] at hcc; cases hcc
      · rw [hfree sp1 hzsp1 c hc] at hcc; cases hcc
      · exact hc
      · rw [hfree sp2 hzsp2 c hc] at hcc; cases hcc
      · rw [hfree b hzb c hc] at hcc; cases hcc
      · rw [hfree post hzpost c hc] at hcc; cases hcc
    have hcont_f : ∀ o ∈ opsList, o ≠ op →
        (pre ++ a ++ sp1 ++ op :: (sp2 ++ b ++ post)).contains o = false := by
      intro o ho hne
      cases hx : (pre ++ a ++ sp1 ++ op :: (sp2 ++ b ++ post)).contains o with
      | false => rfl
      | true =>
        have hmem := List.elem_iff.mp hx
        exact absurd (honly o hmem (contains_true_of_mem ho)) hne
    have hcont_t : (pre ++ a ++ sp1 ++ op :: (sp2 ++ b ++ post)).contains op = true := by
      refine contains_true_of_mem ?_
      simp
    have hsearch_f : ∀ o ∈ opsList, o ≠ op →
        searchOp o (pre ++ a ++ sp1 ++ op :: (sp2 ++ b ++ post)) = none := by
      intro o ho hne
      cases hx : searchOp o (pre ++ a ++ sp1 ++ op :: (sp2 ++ b ++ post)) with
      | none => rfl
      | some r =>
        have hmem := searchOp_mem hx
        exact absurd (honly o hmem (contains_true_of_mem ho)) hne
    have hopcases : op = '+' ∨ op = '-' ∨ op = '*' ∨ op = '/' := by
      simpa [opsList] using hop
    rcases hopcases with rfl | rfl | rfl | rfl
    · have hdisp : opDispatch (pre ++ a ++ sp1 ++ '+' :: (sp2 ++ b ++ post)) na nb
          = some (.ok (na + nb)) := by
        unfold opDispatch
        rw [if_pos hcont_t]
      have hpl : pacLoop (pre ++ a ++ sp1 ++ '+' :: (sp2 ++ b ++ post)) opsList
          = some (.ok (na + nb)) := by
        simp only [opsList, pacLoop, hsearch, hdisp]
      unfold parseAndCalculate
      rw [hpl]
      rfl
    · have hdisp : opDispatch (pre ++ a ++ sp1 ++ '-' :: (sp2 ++ b ++ post)) na nb
          = some (.ok (na - nb)) := by
        unfold opDispatch
        rw [if_neg (by rw [hcont_f '+' (by decide) (by decide)]; exact Bool.false_ne_true),
          if_pos hcont_t]
      have hpl : pacLoop (pre ++ a ++ sp1 ++ '-' :: (sp2 ++ b ++ post)) opsList
          = some (.ok (na - nb)) := by
        simp only [opsList, pacLoop, hsearch, hdisp,
          hsearch_f '+' (by decide) (by decide)]
      unfold parseAndCalculate
      rw [hpl]
      rfl
    · have hdisp : opDispatch (pre ++ a ++ sp1 ++ '*' :: (sp2 ++ b ++ post)) na nb
          = some (.ok (na * nb)) := by
        unfold opDispatch
        rw [if_neg (by rw [hcont_f '+' (by decide) (by decide)]; exact Bool.false_ne_true),
          if_neg (by rw [hcont_f '-' (by decide) (by decide)]; exact Bool.false_ne_true),
          if_pos hcont_t]
      have hpl : pacLoop (pre ++ a ++ sp1 ++ '*' :: (sp2 ++ b ++ post)) opsList
          = some (.ok (na * nb)) := by
        simp only [opsList, pacLoop, hsearch, hdisp,
          hsearch_f '+' (by decide) (by decide), hsearch_f '-' (by decide) (by decide)]
      unfold parseAndCalculate
      rw [hpl]
      rfl
    · have hdisp : opDispatch (pre ++ a ++ sp1 ++ '/' :: (sp2 ++ b ++ post)) na nb
          = some (.ok (na / nb)) := by
        unfold opDispatch
        rw [if_neg (by rw [hcont_f '+' (by decide) (by decide)]; exact Bool.false_ne_true),
          if_neg (by rw [hcont_f '-' (by decide) (by decide)]; exact Bool.false_ne_true),
          if_neg (by rw [hcont_f '*' (by decide) (by decide)]; exact Bool.false_ne_true),
          if_pos hcont_t, if_neg (hdiv rfl)]
      have hpl : pacLoop (pre ++ a ++ sp1 ++ '/' :: (sp2 ++ b ++ post)) opsList
          = some (.ok (na / nb)) := by
        simp only [opsList, pacLoop, hsearch, hdisp,
          hsearch_f '+' (by decide) (by decide), hsearch_f '-' (by decide) (by decide),
          hsearch_f '*' (by decide) (by decide)]
      unfold parseAndCalculate
      rw [hpl]
      rfl
  · intro task hno hlen
    have hnone : ∀ o ∈ opsList, searchOp o task = none := by
      intro o ho
      cases hs : searchOp o task with
      | none => rfl
      | some r => exact absurd (searchOp_hasOpPattern hs) (hno o ho)
    have hpl : pacLoop task opsList = none := by
      simp only [opsList, pacLoop, hnone '+' (by decide), hnone '-' (by decide),
        hnone '*' (by decide), hnone '/' (by decide)]
    unfold parseAndCalculate
    rw [hpl]
    dsimp only
    rw [if_pos hlen]


/-- Witness for C6: `"calculate 12 + 3.5 please"` evaluates to `15.5`, and
`"7 and 8"` falls back to the sum `15`. -/
theorem C6_witness :
    parseAndCalculate (str "calculate " ++ str "12" ++ str " "
        ++ '+' :: (str " " ++ str "3.5" ++ str " please"))
      = .ok (applyOp '+' 12 (7/2))
    ∧ parseAndCalculate (str "7 and 8")
      = .ok ((findNums (str "7 and 8")).foldl (· + ·) 0) := by
  constructor
  · exact C6_parse_and_calculate.1 (str "calculate ") (str "12") (str " ") (str " ") (str "3.5")
      (str " please") '+' 12 (7/2) (by decide) (by decide)
      (by with_unfolding_all decide) (by with_unfolding_all decide)
      (by decide) (by decide) (by decide) (by decide)
      (by with_unfolding_all decide)
  · refine C6_parse_and_calculate.2 (str "7 and 8") ?_ (by decide)
    have h4 : ∀ op ∈ opsList, searchOp op (str "7 and 8") = none := by decide
    exact fun op hop hpat => searchOp_of_pattern hop hpat (h4 op hop)

/-- Claim C5, counterexample: the query `"10 / 0 + 5"` contains a division
with divisor 0, yet `execute` succeeds with result 5, because operator
dispatch is by character containment and `'+'` is checked first. -/
theorem C5_counterexample :
    mathExecute (str "10 / 0 + 5") = .ok (str "10 / 0 + 5") 5
    ∧ isSubstr (str "10 / 0") (str "10 / 0 + 5") = true := by
  with_unfolding_all decide

/-- Claim C5 (amended): `SimpleMathTool.execute` is total: it returns a
success dict with the numeric result when `_parse_and_calculate` produces a
value, and otherwise a failure dict whose error starts with
"Math calculation failed:" plus the fixed suggestion; in particular it fails
when the query contains `/` but none of `+`, `-`, `*` and the first division
match has divisor 0, and when no operator pattern matches and fewer than two
number literals occur. -/
theorem C5_amended : ∀ task : Str,
    ((∃ r, parseAndCalculate task = .ok r ∧ mathExecute task = .ok task r)
      ∨ (∃ e, parseAndCalculate task = .error e
          ∧ mathExecute task = .fail (str "Math calculation failed: " ++ e) mathSuggestion))
    ∧ (∀ n1 : ℚ, task.contains '+' = false → task.contains '-' = false →
        task.contains '*' = false → searchOp '/' task = some (n1, 0) →
        mathExecute task
          = .fail (str "Math calculation failed: Cannot divide by zero") mathSuggestion)
    ∧ ((∀ op ∈ opsList, searchOp op task = none) → (findNums task).length < 2 →
        mathExecute task
          = .fail (str "Math calculation failed: Could not parse mathematical expression from task")
              mathSuggestion) := by
  intro task
  refine ⟨?_, ?_, ?_⟩
  · cases hpc : parseAndCalculate task with
    | ok r =>
      left
      refine ⟨r, rfl, ?_⟩
      unfold mathExecute
      rw [hpc]
    | error e =>
      right
      refine ⟨e, rfl, ?_⟩
      unfold mathExecute
      rw [hpc]
  · intro n1 hcp hcm hcs hsd
    have hnone : ∀ o, o ∈ opsList → task.contains o = false → searchOp o task = none := by
      intro o _ hco
      cases hx : searchOp o task with
      | none => rfl
      | some r =>
        have := contains_true_of_mem (searchOp_mem hx)
        rw [hco] at this
        cases this
    have hct : task.contains '/' = true := contains_true_of_mem (searchOp_mem hsd)
    have hdisp : opDispatch task n1 0 = some (.error (str "Cannot divide by zero")) := by
      unfold opDispatch
      rw [if_neg (by rw [hcp]; exact Bool.false_ne_true),
        if_neg (by rw [hcm]; exact Bool.false_ne_true),
        if_neg (by rw [hcs]; exact Bool.false_ne_true),
        if_pos hct, if_pos rfl]
    have hpl : pacLoop task opsList = some (.error (str "Cannot divide by zero")) := by
      simp only [opsList, pacLoop, hnone '+' (by decide) hcp, hnone '-' (by decide) hcm,
        hnone '*' (by decide) hcs, hsd, hdisp]
    unfold mathExecute parseAndCalculate
    rw [hpl]
    rfl
  · intro hall hlen
    have hpl : pacLoop task opsList = none := by
      simp only [opsList, pacLoop, hall '+' (by decide), hall '-' (by decide),
        hall '*' (by decide), hall '/' (by decide)]
    unfold mathExecute parseAndCalculate
    rw [hpl]
    dsimp only
    rw [if_neg (by omega)]
    rfl

/-- Witness for C5: a bare division by zero, and a query with nothing to
parse. -/
theorem C5_witness :
    mathExecute (str "10 / 0")
      = .fail (str "Math calculation failed: Cannot divide by zero") mathSuggestion
    ∧ mathExecute (str "hello")
      = .fail (str "Math calculation failed: Could not parse mathematical expression from task")
          mathSuggestion :=
  ⟨(C5_amended (str "10 / 0")).2.1 10 (by decide) (by decide) (by decide)
      (by with_unfolding_all decide),
   (C5_amended (str "hello")).2.2 (by decide) (by decide)⟩

end MetisAgent
